import Mathlib

/-!
Verification of the UGE codec (hUGETracker .uge song files, versions 5/6).

Shallow embedding of the repository sources:
* scripts/uge_parser.py        -- the decoder (authoritative)
* scripts/generate_minimal_uge.py -- the minimal v6 fixture generator

Bytes are modelled as natural numbers below 256, byte streams as lists of
bytes plus an absolute offset (mirroring the file cursor, f.tell()).
Python strings are modelled as lists of Unicode code points; the
utf-8 decode with replacement errors used by the parser is modelled by a
total decoder below.  Fallible reads return Except values carrying the
structured content of the exceptions the Python code raises.
-/

/-- A byte stream: the remaining bytes together with the absolute offset of
the first remaining byte (the value Python's f.tell() would report). -/
structure ByteStream where
  data : List Nat
  pos : Nat
deriving DecidableEq, Repr

/-- Structured content of the exceptions raised by uge_parser.py:
EOFError from read_exact, the unsupported-version ValueError in read_uge,
and the unexpected-instrument-type ValueError in the instrument parsers. -/
inductive PErr where
  | truncated (pos needed got : Nat) (ctx : String)
  | unsupportedVersion (v : Nat)
  | unexpectedTag (pos tag expected : Nat)
deriving DecidableEq, Repr

deriving instance DecidableEq for Except

/-- read_exact from uge_parser.py: read exactly n bytes or raise EOFError
carrying the offset at which the read started, the need, the number of
bytes actually available, and the field context. -/
def read_exact (n : Nat) (ctx : String) (s : ByteStream) : Except PErr (List Nat × ByteStream) :=
  if n ≤ s.data.length then
    .ok (s.data.take n, ⟨s.data.drop n, s.pos + n⟩)
  else
    .error (.truncated s.pos n s.data.length ctx)

/-- Little-endian value of a 4-byte list (struct.unpack of format <I). -/
def leU32 (bs : List Nat) : Nat :=
  match bs with
  | [a, b, c, d] => a + 256 * (b + 256 * (c + 256 * d))
  | _ => 0

/-- read_u8 from uge_parser.py. -/
def read_u8 (ctx : String) (s : ByteStream) : Except PErr (Nat × ByteStream) := do
  let (bs, s) ← read_exact 1 ctx s
  pure (bs.headD 0, s)

/-- read_u32 from uge_parser.py (little-endian unsigned 32-bit). -/
def read_u32 (ctx : String) (s : ByteStream) : Except PErr (Nat × ByteStream) := do
  let (bs, s) ← read_exact 4 ctx s
  pure (leU32 bs, s)

/-- read_i8 from uge_parser.py (struct format <b, signed byte). -/
def read_i8 (ctx : String) (s : ByteStream) : Except PErr (Int × ByteStream) := do
  let (bs, s) ← read_exact 1 ctx s
  let b := bs.headD 0
  pure (if b < 128 then (b : Int) else (b : Int) - 256, s)

/-- read_bool_u8 from uge_parser.py: one byte, any nonzero value is true. -/
def read_bool_u8 (ctx : String) (s : ByteStream) : Except PErr (Bool × ByteStream) := do
  let (b, s) ← read_u8 ctx s
  pure (b ≠ 0, s)

/-- Model of Python bytes.rstrip applied with a single-space separator:
remove every trailing 0x20 byte. -/
def dropTrailingSpaces (l : List Nat) : List Nat :=
  (l.reverse.dropWhile (fun b => b = 32)).reverse

/-- Is a byte a utf-8 continuation byte (0x80..0xBF)? -/
def isCont (b : Nat) : Bool := 128 ≤ b && b ≤ 191

/-- One step of the utf-8 decoder: given a lead byte and the bytes behind
it, the code points this step emits and the bytes left for the next step.
A valid sequence emits its code point (rejecting overlong forms and
surrogates, as CPython does); anything else emits U+FFFD. -/
def utf8Step (b0 : Nat) (bs : List Nat) : List Nat × List Nat :=
  if b0 < 128 then ([b0], bs)
  else if b0 < 194 then ([65533], bs)
  else if b0 < 224 then
    match bs with
    | b1 :: bs1 =>
      if isCont b1 then ([(b0 - 192) * 64 + (b1 - 128)], bs1)
      else ([65533], b1 :: bs1)
    | [] => ([65533], [])
  else if b0 < 240 then
    match bs with
    | b1 :: b2 :: bs2 =>
      if (if b0 = 224 then 160 ≤ b1 && b1 ≤ 191
          else if b0 = 237 then 128 ≤ b1 && b1 ≤ 159
          else isCont b1) && isCont b2 then
        ([(b0 - 224) * 4096 + (b1 - 128) * 64 + (b2 - 128)], bs2)
      else ([65533], b1 :: b2 :: bs2)
    | [b1] => ([65533], [b1])
    | [] => ([65533], [])
  else if b0 < 245 then
    match bs with
    | b1 :: b2 :: b3 :: bs3 =>
      if (if b0 = 240 then 144 ≤ b1 && b1 ≤ 191
          else if b0 = 244 then 128 ≤ b1 && b1 ≤ 143
          else isCont b1) && isCont b2 && isCont b3 then
        ([(b0 - 240) * 262144 + (b1 - 128) * 4096 + (b2 - 128) * 64 +
          (b3 - 128)], bs3)
      else ([65533], b1 :: b2 :: b3 :: bs3)
    | [b1, b2] => ([65533], [b1, b2])
    | [b1] => ([65533], [b1])
    | [] => ([65533], [])
  else ([65533], bs)

/-- The fuel-driven utf-8 decoding loop: each step consumes at least the
lead byte, so fuel equal to the list length always suffices. -/
def decodeUtf8Fuel : Nat → List Nat → List Nat
  | 0, _ => []
  | _ + 1, [] => []
  | fuel + 1, b0 :: bs =>
    (utf8Step b0 bs).1 ++ decodeUtf8Fuel fuel (utf8Step b0 bs).2

/-- Model of Python bytes.decode of utf-8 with replacement on errors:
a total decoder from bytes to code points that decodes every valid utf-8
sequence and emits U+FFFD replacements for bytes that do not form one.
The exact replacement count for an invalid sequence is irrelevant to the
properties proved here; what matters is totality and correctness on valid
input. -/
def decodeUtf8Replace (l : List Nat) : List Nat := decodeUtf8Fuel l.length l

/-- read_shortstring from uge_parser.py: one length byte, a constant
255-byte area, of which only the first L bytes are decoded. -/
def read_shortstring (ctx : String) (s : ByteStream) : Except PErr (List Nat × ByteStream) := do
  let (L, s) ← read_u8 (ctx ++ ".length") s
  let (raw, s) ← read_exact 255 (ctx ++ ".payload[255]") s
  pure (decodeUtf8Replace (raw.take L), s)

/-- read_string from uge_parser.py: u32 byte count, then that many bytes;
trailing space bytes are stripped before utf-8 decoding. -/
def read_string (ctx : String) (s : ByteStream) : Except PErr (List Nat × ByteStream) := do
  let (n, s) ← read_u32 (ctx ++ ".len") s
  let (raw, s) ← read_exact n (ctx ++ ".data") s
  pure (decodeUtf8Replace (dropTrailingSpaces raw), s)

/-! ## Data model (the dataclasses of uge_parser.py) -/

/-- InstrumentRow from uge_parser.py (one subpattern row). -/
structure InstrumentRow where
  note : Nat
  jump : Nat
  effect_code : Nat
  effect_param : Nat
deriving DecidableEq, Repr

/-- Instrument from uge_parser.py.  Python models kind-specific fields as
Optional values on a single dataclass; the embedding mirrors that. -/
structure Instrument where
  type : Nat
  name : List Nat
  length : Nat
  length_enabled : Bool
  initial_volume : Option Nat := none
  volume_sweep_dir : Option Nat := none
  volume_sweep_change : Option Nat := none
  freq_sweep_time : Option Nat := none
  sweep_enabled : Option Nat := none
  freq_sweep_shift : Option Nat := none
  duty_cycle : Option Nat := none
  volume : Option Nat := none
  wave_index : Option Nat := none
  noise_mode : Option Nat := none
  subpattern_enabled : Option Bool := none
  rows : Option (List InstrumentRow) := none
deriving DecidableEq, Repr

/-- PatternRow from uge_parser.py. -/
structure PatternRow where
  note : Nat
  instrument_val : Nat
  effect_code : Nat
  effect_param : Nat
deriving DecidableEq, Repr

/-- Pattern from uge_parser.py: stored index plus 64 rows. -/
structure Pattern where
  index : Nat
  rows : List PatternRow
deriving DecidableEq, Repr

/-- Orders from uge_parser.py: one pattern-index list per channel. -/
structure Orders where
  duty1 : List Nat
  duty2 : List Nat
  wave : List Nat
  noise : List Nat
deriving DecidableEq, Repr

/-- UgeSong from uge_parser.py: the decoded song record. -/
structure UgeSong where
  version : Nat
  name : List Nat
  artist : List Nat
  comment : List Nat
  duty_instruments : List Instrument
  wave_instruments : List Instrument
  noise_instruments : List Instrument
  wavetable_nibbles : List (List Nat)
  initial_tpr : Nat
  timer_tempo_enabled : Option Bool
  timer_tempo_divider : Option Nat
  patterns : List Pattern
  orders : Orders
  routines : List (List Nat)
deriving DecidableEq, Repr

/-! ## Parsing functions -/

/-- The body of the 64-iteration row loop of parse_instrument_rows,
recursion on the remaining iteration count. -/
def parseRowsN (ctx : String) : Nat → ByteStream →
    Except PErr (List InstrumentRow × ByteStream)
  | 0, s => .ok ([], s)
  | n + 1, s => do
    let (note, s) ← read_u32 (ctx ++ ".row.note") s
    let (_unused, s) ← read_u32 (ctx ++ ".row.unused") s
    let (jump, s) ← read_u32 (ctx ++ ".row.jump") s
    let (effect_code, s) ← read_u32 (ctx ++ ".row.effect_code") s
    let (effect_param, s) ← read_u8 (ctx ++ ".row.effect_param") s
    let (rows, s) ← parseRowsN ctx n s
    pure (⟨note, jump, effect_code, effect_param⟩ :: rows, s)

/-- The 6-iteration trailing-bytes loop of parse_instrument_rows. -/
def skipI8N (ctx : String) : Nat → ByteStream → Except PErr (Unit × ByteStream)
  | 0, s => .ok ((), s)
  | n + 1, s => do
    let (_, s) ← read_i8 (ctx ++ ".post_rows_unused") s
    skipI8N ctx n s

/-- parse_instrument_rows from uge_parser.py: 64 rows of
(note u32, unused u32, jump u32, effect_code u32, effect_param u8);
versions 4 and 5 are followed by 6 signed filler bytes. -/
def parse_instrument_rows (version : Nat) (ctx : String) (s : ByteStream) :
    Except PErr (List InstrumentRow × ByteStream) := do
  let (rows, s) ← parseRowsN ctx 64 s
  if 4 ≤ version ∧ version < 6 then
    let (_, s) ← skipI8N ctx 6 s
    pure (rows, s)
  else
    pure (rows, s)

/-- Advance a stream by dropping k bytes (models f.seek(base_off + k)
from a saved base position). -/
def ByteStream.dropBytes (s : ByteStream) (k : Nat) : ByteStream :=
  ⟨s.data.drop k, s.pos + k⟩

/-- The shift-scan loop shared by the three instrument parsers: try byte
shifts from the given list in order; at each shift read a u32; stop with
that shift if it equals the expected tag; on a short read, break out and
(like the enclosing code, found = False) raise the unexpected-tag error.
Returns the chosen shift on success. -/
def scanShift (expected : Nat) (ctx : String) (tag0 : Nat) (s : ByteStream) :
    List Nat → Except PErr Nat
  | [] => .error (.unexpectedTag s.pos tag0 expected)
  | k :: ks =>
    match read_u32 (ctx ++ ".type.peek_shift") (s.dropBytes k) with
    | .error _ => .error (.unexpectedTag s.pos tag0 expected)
    | .ok (cand, _) =>
      if cand = expected then .ok k
      else scanShift expected ctx tag0 s ks

/-- The common head of parse_duty_instrument / parse_wave_instrument /
parse_noise_instrument: peek 8 bytes (for diagnostics; the peek can itself
raise EOFError), read the type u32, and if it is not the expected tag,
attempt the 1..4-byte resynchronization, returning the stream positioned
where parsing continues plus the warnings printed.  On a successful resync
the code seeks back to base_off + shift, so the tag bytes are not skipped
there. -/
def resolveInstType (expected : Nat) (ctx : String) (s : ByteStream) :
    Except PErr ((Nat × List String) × ByteStream) := do
  let (_peek, _) ← read_exact 8 (ctx ++ ".peek") s
  let (t, s1) ← read_u32 (ctx ++ ".type") s
  if t = expected then
    pure ((t, []), s1)
  else
    match scanShift expected ctx t s [1, 2, 3, 4] with
    | .ok k => pure ((expected, [ctx ++ ".resync"]), s.dropBytes k)
    | .error e => .error e

/-- Everything parse_duty_instrument does after the type tag has been
resolved. -/
def parseDutyBody (version : Nat) (ctx : String) (inst_type : Nat)
    (warns : List String) (s : ByteStream) :
    Except PErr ((Instrument × List String) × ByteStream) := do
  let (name, s) ← read_shortstring (ctx ++ ".name") s
  let (length, s) ← read_u32 (ctx ++ ".length") s
  let (length_enabled, s) ← read_bool_u8 (ctx ++ ".length_enabled") s
  let (initial_volume, s) ← read_u8 (ctx ++ ".initial_volume") s
  let (volume_sweep_dir, s) ← read_u32 (ctx ++ ".volume_sweep_dir") s
  let (volume_sweep_change, s) ← read_u8 (ctx ++ ".volume_sweep_change") s
  let (freq_sweep_time, s) ← read_u32 (ctx ++ ".freq_sweep_time") s
  let (sweep_enabled, s) ← read_u32 (ctx ++ ".sweep_enabled") s
  let (freq_sweep_shift, s) ← read_u32 (ctx ++ ".freq_sweep_shift") s
  let (duty_cycle, s) ← read_u8 (ctx ++ ".duty_cycle") s
  let (_, s) ← read_u32 (ctx ++ ".unused_a") s
  let (_, s) ← read_u32 (ctx ++ ".unused_b") s
  if version < 6 then
    let (_, s) ← read_u32 (ctx ++ ".unused_vlt6_c") s
    let (_, s) ← read_u32 (ctx ++ ".unused_vlt6_d") s
    let (_, s) ← read_u32 (ctx ++ ".unused_vlt6_e") s
    let (rows, s) ← parse_instrument_rows version ctx s
    pure ((⟨inst_type, name, length, length_enabled, some initial_volume,
      some volume_sweep_dir, some volume_sweep_change, some freq_sweep_time,
      some sweep_enabled, some freq_sweep_shift, some duty_cycle,
      none, none, none, none, some rows⟩, warns), s)
  else
    let (subpattern_enabled, s) ← read_bool_u8 (ctx ++ ".subpattern_enabled") s
    if subpattern_enabled then
      let (rows, s) ← parse_instrument_rows version ctx s
      pure ((⟨inst_type, name, length, length_enabled, some initial_volume,
        some volume_sweep_dir, some volume_sweep_change, some freq_sweep_time,
        some sweep_enabled, some freq_sweep_shift, some duty_cycle,
        none, none, none, some subpattern_enabled, some rows⟩, warns), s)
    else
      pure ((⟨inst_type, name, length, length_enabled, some initial_volume,
        some volume_sweep_dir, some volume_sweep_change, some freq_sweep_time,
        some sweep_enabled, some freq_sweep_shift, some duty_cycle,
        none, none, none, some subpattern_enabled, none⟩, warns), s)

/-- parse_duty_instrument from uge_parser.py.  The returned string list
models the WARNING lines the Python code prints during resynchronization. -/
def parse_duty_instrument (version idx : Nat) (s : ByteStream) :
    Except PErr ((Instrument × List String) × ByteStream) := do
  let ((t, warns), s) ← resolveInstType 0 ("duty[" ++ toString idx ++ "]") s
  parseDutyBody version ("duty[" ++ toString idx ++ "]") t warns s

/-- Everything parse_wave_instrument does after the type tag has been
resolved. -/
def parseWaveBody (version : Nat) (ctx : String) (inst_type : Nat)
    (warns : List String) (s : ByteStream) :
    Except PErr ((Instrument × List String) × ByteStream) := do
  let (name, s) ← read_shortstring (ctx ++ ".name") s
  let (length, s) ← read_u32 (ctx ++ ".length") s
  let (length_enabled, s) ← read_bool_u8 (ctx ++ ".length_enabled") s
  let (_, s) ← read_u8 (ctx ++ ".unused1_u8") s
  let (_, s) ← read_u32 (ctx ++ ".unused2_u32") s
  let (_, s) ← read_u8 (ctx ++ ".unused3_u8") s
  let (_, s) ← read_u32 (ctx ++ ".unused4_u32") s
  let (_, s) ← read_u32 (ctx ++ ".unused5_u32") s
  let (_, s) ← read_u32 (ctx ++ ".unused6_u32") s
  let (_, s) ← read_u8 (ctx ++ ".unused7_u8") s
  let (volume, s) ← read_u32 (ctx ++ ".volume") s
  let (wave_index, s) ← read_u32 (ctx ++ ".wave_index") s
  if version < 6 then
    let (_, s) ← read_u32 (ctx ++ ".unused_vlt6_a") s
    let (_, s) ← read_u32 (ctx ++ ".unused_vlt6_b") s
    let (_, s) ← read_u32 (ctx ++ ".unused_vlt6_c") s
    let (rows, s) ← parse_instrument_rows version ctx s
    pure ((⟨inst_type, name, length, length_enabled, none, none, none, none,
      none, none, none, some volume, some wave_index, none, none,
      some rows⟩, warns), s)
  else
    let (subpattern_enabled, s) ← read_bool_u8 (ctx ++ ".subpattern_enabled") s
    if subpattern_enabled then
      let (rows, s) ← parse_instrument_rows version ctx s
      pure ((⟨inst_type, name, length, length_enabled, none, none, none, none,
        none, none, none, some volume, some wave_index, none,
        some subpattern_enabled, some rows⟩, warns), s)
    else
      pure ((⟨inst_type, name, length, length_enabled, none, none, none, none,
        none, none, none, some volume, some wave_index, none,
        some subpattern_enabled, none⟩, warns), s)

/-- parse_wave_instrument from uge_parser.py. -/
def parse_wave_instrument (version idx : Nat) (s : ByteStream) :
    Except PErr ((Instrument × List String) × ByteStream) := do
  let ((t, warns), s) ← resolveInstType 1 ("wave[" ++ toString idx ++ "]") s
  parseWaveBody version ("wave[" ++ toString idx ++ "]") t warns s

/-- Everything parse_noise_instrument does after the type tag has been
resolved. -/
def parseNoiseBody (version : Nat) (ctx : String) (inst_type : Nat)
    (warns : List String) (s : ByteStream) :
    Except PErr ((Instrument × List String) × ByteStream) := do
  let (name, s) ← read_shortstring (ctx ++ ".name") s
  let (length, s) ← read_u32 (ctx ++ ".length") s
  let (length_enabled, s) ← read_bool_u8 (ctx ++ ".length_enabled") s
  let (initial_volume, s) ← read_u8 (ctx ++ ".initial_volume") s
  let (volume_sweep_dir, s) ← read_u32 (ctx ++ ".volume_sweep_dir") s
  let (volume_sweep_change, s) ← read_u8 (ctx ++ ".volume_sweep_change") s
  let (_, s) ← read_u32 (ctx ++ ".unused_a") s
  let (_, s) ← read_u32 (ctx ++ ".unused_b") s
  let (_, s) ← read_u32 (ctx ++ ".unused_c") s
  let (_, s) ← read_u8 (ctx ++ ".unused_d") s
  let (_, s) ← read_u32 (ctx ++ ".unused_e") s
  let (_, s) ← read_u32 (ctx ++ ".unused_f") s
  if version < 6 then
    let (_, s) ← read_u32 (ctx ++ ".unused_vlt6_a") s
    let (noise_mode, s) ← read_u32 (ctx ++ ".noise_mode") s
    let (_, s) ← read_u32 (ctx ++ ".unused_vlt6_b") s
    let (rows, s) ← parse_instrument_rows version ctx s
    pure ((⟨inst_type, name, length, length_enabled, some initial_volume,
      some volume_sweep_dir, some volume_sweep_change, none, none, none,
      none, none, none, some noise_mode, none, some rows⟩, warns), s)
  else
    let (subpattern_enabled, s) ← read_bool_u8 (ctx ++ ".subpattern_enabled") s
    if subpattern_enabled then
      let (rows, s) ← parse_instrument_rows version ctx s
      pure ((⟨inst_type, name, length, length_enabled, some initial_volume,
        some volume_sweep_dir, some volume_sweep_change, none, none, none,
        none, none, none, none, some subpattern_enabled, some rows⟩, warns), s)
    else
      pure ((⟨inst_type, name, length, length_enabled, some initial_volume,
        some volume_sweep_dir, some volume_sweep_change, none, none, none,
        none, none, none, none, some subpattern_enabled, none⟩, warns), s)

/-- parse_noise_instrument from uge_parser.py. -/
def parse_noise_instrument (version idx : Nat) (s : ByteStream) :
    Except PErr ((Instrument × List String) × ByteStream) := do
  let ((t, warns), s) ← resolveInstType 2 ("noise[" ++ toString idx ++ "]") s
  parseNoiseBody version ("noise[" ++ toString idx ++ "]") t warns s

/-- The inner 32-nibble loop of parse_wavetables. -/
def parseNibblesN (ctx : String) : Nat → ByteStream →
    Except PErr (List Nat × ByteStream)
  | 0, s => .ok ([], s)
  | n + 1, s => do
    let (b, s) ← read_u8 (ctx ++ ".nibble") s
    let (rest, s) ← parseNibblesN ctx n s
    pure (b :: rest, s)

/-- The outer 16-wave loop of parse_wavetables. -/
def parseWavesN : Nat → ByteStream → Except PErr (List (List Nat) × ByteStream)
  | 0, s => .ok ([], s)
  | n + 1, s => do
    let (w, s) ← parseNibblesN ("wavetable") 32 s
    let (rest, s) ← parseWavesN n s
    pure (w :: rest, s)

/-- parse_wavetables from uge_parser.py: 16 waves of 32 byte-stored
nibbles; an extra filler byte is read only for version < 3. -/
def parse_wavetables (version : Nat) (s : ByteStream) :
    Except PErr (List (List Nat) × ByteStream) := do
  let (waves, s) ← parseWavesN 16 s
  if version < 3 then
    let (_, s) ← read_u8 ("wavetable.off_by_one_filler") s
    pure (waves, s)
  else
    pure (waves, s)

/-- The 64-iteration pattern-row loop of parse_patterns.  For version ≥ 6
an extra unused u32 sits between the instrument value and the effect
code. -/
def parsePatternRowsN (version : Nat) (ctx : String) : Nat → ByteStream →
    Except PErr (List PatternRow × ByteStream)
  | 0, s => .ok ([], s)
  | n + 1, s => do
    let (note, s) ← read_u32 (ctx ++ ".row.note") s
    let (inst_val, s) ← read_u32 (ctx ++ ".row.instrument_value") s
    let (s : ByteStream) ←
      if 6 ≤ version then do
        let (_, s) ← read_u32 (ctx ++ ".row.unused_v6") s
        pure s
      else
        pure s
    let (effect_code, s) ← read_u32 (ctx ++ ".row.effect_code") s
    let (effect_param, s) ← read_u8 (ctx ++ ".row.effect_param") s
    let (rows, s) ← parsePatternRowsN version ctx n s
    pure (⟨note, inst_val, effect_code, effect_param⟩ :: rows, s)

/-- The pattern loop of parse_patterns: each pattern is its u32 index
followed by 64 rows. -/
def parsePatternsN (version : Nat) : Nat → ByteStream →
    Except PErr (List Pattern × ByteStream)
  | 0, s => .ok ([], s)
  | n + 1, s => do
    let (pat_idx, s) ← read_u32 ("pattern.index") s
    let (rows, s) ← parsePatternRowsN version ("pattern") 64 s
    let (rest, s) ← parsePatternsN version n s
    pure (⟨pat_idx, rows⟩ :: rest, s)

/-- parse_patterns from uge_parser.py: initial ticks per row, the v6-only
timer-tempo pair, the pattern count and that many patterns. -/
def parse_patterns (version : Nat) (s : ByteStream) :
    Except PErr ((Nat × Option Bool × Option Nat × List Pattern) × ByteStream) := do
  let (initial_tpr, s) ← read_u32 ("song.initial_ticks_per_row") s
  if 6 ≤ version then
    let (timer_enabled, s) ← read_bool_u8 ("song.timer_tempo_enabled") s
    let (timer_div, s) ← read_u32 ("song.timer_tempo_divider") s
    let (num_patterns, s) ← read_u32 ("song.num_patterns") s
    let (patterns, s) ← parsePatternsN version num_patterns s
    pure ((initial_tpr, some timer_enabled, some timer_div, patterns), s)
  else
    let (num_patterns, s) ← read_u32 ("song.num_patterns") s
    let (patterns, s) ← parsePatternsN version num_patterns s
    pure ((initial_tpr, none, none, patterns), s)

/-- The (index, filler) pair loop of parse_orders: the index u32 is kept,
the filler u32 is read and dropped. -/
def parseOrderPairsN (ctx : String) : Nat → ByteStream →
    Except PErr (List Nat × ByteStream)
  | 0, s => .ok ([], s)
  | n + 1, s => do
    let (idx, s) ← read_u32 (ctx ++ ".index") s
    let (_filler, s) ← read_u32 (ctx ++ ".filler") s
    let (rest, s) ← parseOrderPairsN ctx n s
    pure (idx :: rest, s)

/-- One channel of parse_orders: a u32 length-plus-one word followed by
max(0, value - 1) pairs (natural subtraction realizes the max). -/
def parseOrderChannel (ctx : String) (s : ByteStream) :
    Except PErr (List Nat × ByteStream) := do
  let (order_len_plus_one, s) ← read_u32 (ctx ++ ".length_plus_one") s
  parseOrderPairsN ctx (order_len_plus_one - 1) s

/-- parse_orders from uge_parser.py: the four channels in fixed order. -/
def parse_orders (s : ByteStream) : Except PErr (Orders × ByteStream) := do
  let (d1, s) ← parseOrderChannel ("orders[Duty1]") s
  let (d2, s) ← parseOrderChannel ("orders[Duty2]") s
  let (wv, s) ← parseOrderChannel ("orders[Wave]") s
  let (ns, s) ← parseOrderChannel ("orders[Noise]") s
  pure (⟨d1, d2, wv, ns⟩, s)

/-- The 16-iteration loop of parse_routines. -/
def parseRoutinesN : Nat → ByteStream →
    Except PErr (List (List Nat) × ByteStream)
  | 0, s => .ok ([], s)
  | n + 1, s => do
    let (code, s) ← read_string ("routine") s
    let (rest, s) ← parseRoutinesN n s
    pure (code :: rest, s)

/-- parse_routines from uge_parser.py: 16 long strings. -/
def parse_routines (s : ByteStream) :
    Except PErr (List (List Nat) × ByteStream) :=
  parseRoutinesN 16 s

/-- The 15-iteration duty-instrument loop of read_uge. -/
def parseDutyListN (version : Nat) : Nat → Nat → ByteStream →
    Except PErr (List Instrument × ByteStream)
  | _, 0, s => .ok ([], s)
  | i, n + 1, s => do
    let ((inst, _warns), s) ← parse_duty_instrument version i s
    let (rest, s) ← parseDutyListN version (i + 1) n s
    pure (inst :: rest, s)

/-- The 15-iteration wave-instrument loop of read_uge. -/
def parseWaveListN (version : Nat) : Nat → Nat → ByteStream →
    Except PErr (List Instrument × ByteStream)
  | _, 0, s => .ok ([], s)
  | i, n + 1, s => do
    let ((inst, _warns), s) ← parse_wave_instrument version i s
    let (rest, s) ← parseWaveListN version (i + 1) n s
    pure (inst :: rest, s)

/-- The 15-iteration noise-instrument loop of read_uge. -/
def parseNoiseListN (version : Nat) : Nat → Nat → ByteStream →
    Except PErr (List Instrument × ByteStream)
  | _, 0, s => .ok ([], s)
  | i, n + 1, s => do
    let ((inst, _warns), s) ← parse_noise_instrument version i s
    let (rest, s) ← parseNoiseListN version (i + 1) n s
    pure (inst :: rest, s)

/-- The body of read_uge from uge_parser.py, as a stream transformer: it
also returns the stream state after the 16th routine (the Python function
returns only the song and performs no end-of-file check). -/
def parse_uge (s : ByteStream) : Except PErr (UgeSong × ByteStream) := do
  let (version, s) ← read_u32 ("header.version") s
  if version < 5 ∨ 6 < version then
    .error (.unsupportedVersion version)
  else
    let (name, s) ← read_shortstring ("header.song_name") s
    let (artist, s) ← read_shortstring ("header.song_artist") s
    let (comment, s) ← read_shortstring ("header.song_comment") s
    let (duty_insts, s) ← parseDutyListN version 0 15 s
    let (wave_insts, s) ← parseWaveListN version 0 15 s
    let (noise_insts, s) ← parseNoiseListN version 0 15 s
    let (waves, s) ← parse_wavetables version s
    let ((initial_tpr, timer_enabled, timer_div, patterns), s) ←
      parse_patterns version s
    let (orders, s) ← parse_orders s
    let (routines, s) ← parse_routines s
    pure (⟨version, name, artist, comment, duty_insts, wave_insts,
      noise_insts, waves, initial_tpr, timer_enabled, timer_div, patterns,
      orders, routines⟩, s)

/-- read_uge from uge_parser.py, applied to the full contents of the
file: the decoded song, or the first error raised. -/
def read_uge (bytes : List Nat) : Except PErr UgeSong :=
  (parse_uge ⟨bytes, 0⟩).map Prod.fst

/-! ## The minimal-fixture generator (generate_minimal_uge.py) -/

/-- write_u8 from generate_minimal_uge.py (struct.pack of format <B). -/
def write_u8 (v : Nat) : List Nat := [v % 256]

/-- write_u32 from generate_minimal_uge.py (struct.pack of format <I,
little-endian). -/
def write_u32 (v : Nat) : List Nat :=
  [v % 256, v / 256 % 256, v / 65536 % 256, v / 16777216 % 256]

/-- write_bool from generate_minimal_uge.py. -/
def write_bool (b : Bool) : List Nat := write_u8 (if b then 1 else 0)

/-- write_shortstring from generate_minimal_uge.py, over the utf-8 bytes
of the string: 1 length byte, the (truncated) bytes, zero padding to a
255-byte area. -/
def write_shortstring (bs : List Nat) : List Nat :=
  let b := bs.take 255
  write_u8 b.length ++ b ++ List.replicate (255 - b.length) 0

/-- write_string from generate_minimal_uge.py, over utf-8 bytes: u32
length then the raw bytes. -/
def write_string (bs : List Nat) : List Nat := write_u32 bs.length ++ bs

/-- Decimal ASCII digits of a small number (the {idx} of the generator's
f-string instrument names; the generator only uses 0 ≤ idx < 15). -/
def asciiDec (n : Nat) : List Nat :=
  if n < 10 then [48 + n] else [49, 48 + (n - 10)]

/-- The utf-8 bytes of an ASCII string literal. -/
def strBytes (s : String) : List Nat := s.toList.map Char.toNat

/-- The 64 subpattern rows the generator always writes
(note 90, instrument 0, volume 0x00005A00, effect 0, param 0). -/
def genSubRows : List Nat :=
  (List.replicate 64 (write_u32 90 ++ write_u32 0 ++ write_u32 0x00005A00 ++
    write_u32 0 ++ write_u8 0)).flatten

/-- write_minimal_duty_instrument from generate_minimal_uge.py. -/
def write_minimal_duty_instrument (idx : Nat) : List Nat :=
  write_u32 0 ++ write_shortstring (strBytes ("duty") ++ asciiDec idx) ++
  write_u32 0 ++ write_bool false ++ write_u8 15 ++ write_u32 0 ++
  write_u8 0 ++ write_u32 0 ++ write_u32 0 ++ write_u32 0 ++ write_u8 2 ++
  write_u32 0 ++ write_u32 0 ++ write_u32 0 ++ write_bool false ++ genSubRows

/-- write_minimal_wave_instrument from generate_minimal_uge.py. -/
def write_minimal_wave_instrument (idx : Nat) : List Nat :=
  write_u32 1 ++ write_shortstring (strBytes ("wave") ++ asciiDec idx) ++
  write_u32 0 ++ write_bool false ++ write_u8 0 ++ write_u32 0 ++
  write_u8 0 ++ write_u32 0 ++ write_u32 0 ++ write_u32 0 ++ write_u8 0 ++
  write_u32 3 ++ write_u32 0 ++ write_u32 0 ++ write_bool false ++ genSubRows

/-- write_minimal_noise_instrument from generate_minimal_uge.py. -/
def write_minimal_noise_instrument (idx : Nat) : List Nat :=
  write_u32 2 ++ write_shortstring (strBytes ("noise") ++ asciiDec idx) ++
  write_u32 0 ++ write_bool false ++ write_u8 15 ++ write_u32 1 ++
  write_u8 0 ++ write_u32 0 ++ write_u32 0 ++ write_u32 0 ++ write_u8 0 ++
  write_u32 0 ++ write_u32 0 ++ write_u32 0 ++ write_bool false ++ genSubRows

/-- The wavetable block the generator writes: 16 waves of 32 bytes, each
byte being its in-wave position modulo 16. -/
def genWavetable : List Nat :=
  (List.replicate 16 ((List.range 32).map (fun n => n % 16))).flatten

/-- The single empty pattern the generator writes (v6 row layout:
note 90, instrument 0, unused 0x00005A00, effect 0, param 0). -/
def genPattern : List Nat :=
  write_u32 0 ++
  (List.replicate 64 (write_u32 90 ++ write_u32 0 ++ write_u32 0x00005A00 ++
    write_u32 0 ++ write_u8 0)).flatten

/-- generate_minimal_uge_v6 from generate_minimal_uge.py: the full byte
stream the generator writes to its output file. -/
def generate_minimal_uge_v6 : List Nat :=
  write_u32 6 ++
  write_shortstring (strBytes ("Test Song")) ++
  write_shortstring (strBytes ("Test Artist")) ++
  write_shortstring (strBytes ("Generated minimal UGE v6")) ++
  ((List.range 15).map write_minimal_duty_instrument).flatten ++
  ((List.range 15).map write_minimal_wave_instrument).flatten ++
  ((List.range 15).map write_minimal_noise_instrument).flatten ++
  genWavetable ++
  write_u32 7 ++ write_bool false ++ write_u32 0 ++ write_u32 1 ++
  genPattern ++
  (List.replicate 4 (write_u32 1 ++ write_u32 0)).flatten ++
  (List.replicate 16 (write_string [])).flatten

/-! ## Encoding (spec-modelled)

The repository ships no encoder; the spec describes one (section 6:
byte-exact serialization that must be the left inverse of decode).  The
definitions below are marked accordingly. -/

/-- Utf-8 bytes of one code point (valid code points only; the encoder is
applied to valid songs whose strings contain no surrogates). -/
def utf8EncodeChar (c : Nat) : List Nat :=
  if c < 128 then [c]
  else if c < 2048 then [192 + c / 64, 128 + c % 64]
  else if c < 65536 then [224 + c / 4096, 128 + c / 64 % 64, 128 + c % 64]
  else [240 + c / 262144, 128 + c / 4096 % 64, 128 + c / 64 % 64, 128 + c % 64]

/-- Utf-8 bytes of a code-point string (Python str.encode of utf-8). -/
def utf8Encode (cs : List Nat) : List Nat := (cs.map utf8EncodeChar).flatten

/-- Modelled from the spec: the encoder for one subpattern row, absent
from src/; writes exactly the 17-byte row layout the decoder reads
(section 4.2), with zero for the unused filler word. -/
def encInstrumentRow (r : InstrumentRow) : List Nat :=
  write_u32 r.note ++ write_u32 0 ++ write_u32 r.jump ++
  write_u32 r.effect_code ++ write_u8 r.effect_param

/-- Modelled from the spec: the encoder for a 64-row subpattern block,
with the 6 reserved bytes that follow it for versions 4..5. -/
def encInstrumentRows (version : Nat) (rows : List InstrumentRow) : List Nat :=
  (rows.map encInstrumentRow).flatten ++
  (if 4 ≤ version ∧ version < 6 then List.replicate 6 0 else [])

/-- Modelled from the spec: the version branch every instrument encoder
ends with — versions < 6 write three reserved u32 words and the
unconditional row block, version ≥ 6 writes the subpattern-enabled flag
and the rows only when the flag is set (section 4.2 step 4). -/
def encSubTail (version : Nat) (i : Instrument) : List Nat :=
  if version < 6 then
    write_u32 0 ++ write_u32 0 ++ write_u32 0 ++
    encInstrumentRows version (i.rows.getD [])
  else
    write_bool (i.subpattern_enabled.getD false) ++
    (if i.subpattern_enabled.getD false then
      encInstrumentRows version (i.rows.getD []) else [])

/-- Modelled from the spec: everything the tone (duty) instrument encoder
writes after the kind tag; mirrors the field order parse_duty_instrument
reads, writing zero for each preserved-but-uninterpreted field. -/
def encDutyTail (version : Nat) (i : Instrument) : List Nat :=
  write_shortstring (utf8Encode i.name) ++
  write_u32 i.length ++ write_bool i.length_enabled ++
  write_u8 (i.initial_volume.getD 0) ++ write_u32 (i.volume_sweep_dir.getD 0) ++
  write_u8 (i.volume_sweep_change.getD 0) ++ write_u32 (i.freq_sweep_time.getD 0) ++
  write_u32 (i.sweep_enabled.getD 0) ++ write_u32 (i.freq_sweep_shift.getD 0) ++
  write_u8 (i.duty_cycle.getD 0) ++ write_u32 0 ++ write_u32 0 ++
  encSubTail version i

/-- Modelled from the spec: the encoder for a tone (duty) instrument,
absent from src/ (spec section 4.2). -/
def encDuty (version : Nat) (i : Instrument) : List Nat :=
  write_u32 i.type ++ encDutyTail version i

/-- Modelled from the spec: everything the wave instrument encoder writes
after the kind tag; mirrors the field order parse_wave_instrument reads. -/
def encWaveTail (version : Nat) (i : Instrument) : List Nat :=
  write_shortstring (utf8Encode i.name) ++
  write_u32 i.length ++ write_bool i.length_enabled ++
  write_u8 0 ++ write_u32 0 ++ write_u8 0 ++ write_u32 0 ++ write_u32 0 ++
  write_u32 0 ++ write_u8 0 ++
  write_u32 (i.volume.getD 0) ++ write_u32 (i.wave_index.getD 0) ++
  encSubTail version i

/-- Modelled from the spec: the encoder for a wave instrument, absent
from src/ (spec section 4.2). -/
def encWave (version : Nat) (i : Instrument) : List Nat :=
  write_u32 i.type ++ encWaveTail version i

/-- Modelled from the spec: the version branch the noise instrument
encoder ends with — for versions < 6 the noise mode sits between two
reserved words, before the unconditional row block. -/
def encNoiseSubTail (version : Nat) (i : Instrument) : List Nat :=
  if version < 6 then
    write_u32 0 ++ write_u32 (i.noise_mode.getD 0) ++ write_u32 0 ++
    encInstrumentRows version (i.rows.getD [])
  else
    write_bool (i.subpattern_enabled.getD false) ++
    (if i.subpattern_enabled.getD false then
      encInstrumentRows version (i.rows.getD []) else [])

/-- Modelled from the spec: everything the noise instrument encoder
writes after the kind tag; mirrors the field order parse_noise_instrument
reads. -/
def encNoiseTail (version : Nat) (i : Instrument) : List Nat :=
  write_shortstring (utf8Encode i.name) ++
  write_u32 i.length ++ write_bool i.length_enabled ++
  write_u8 (i.initial_volume.getD 0) ++ write_u32 (i.volume_sweep_dir.getD 0) ++
  write_u8 (i.volume_sweep_change.getD 0) ++
  write_u32 0 ++ write_u32 0 ++ write_u32 0 ++ write_u8 0 ++ write_u32 0 ++
  write_u32 0 ++
  encNoiseSubTail version i

/-- Modelled from the spec: the encoder for a noise instrument, absent
from src/ (spec section 4.2). -/
def encNoise (version : Nat) (i : Instrument) : List Nat :=
  write_u32 i.type ++ encNoiseTail version i

/-- Modelled from the spec: the encoder for one pattern row (section 4.4);
version ≥ 6 carries the extra unused word, written as zero. -/
def encPatternRow (version : Nat) (r : PatternRow) : List Nat :=
  write_u32 r.note ++ write_u32 r.instrument_val ++
  (if 6 ≤ version then write_u32 0 else []) ++
  write_u32 r.effect_code ++ write_u8 r.effect_param

/-- Modelled from the spec: the encoder for one pattern: its index then
its 64 rows. -/
def encPattern (version : Nat) (p : Pattern) : List Nat :=
  write_u32 p.index ++ (p.rows.map (encPatternRow version)).flatten

/-- Modelled from the spec: the encoder for one order channel
(section 4.5): true length + 1, then an (index, filler) pair per entry,
the filler written as zero. -/
def encOrderChannel (ch : List Nat) : List Nat :=
  write_u32 (ch.length + 1) ++
  (ch.map (fun i => write_u32 i ++ write_u32 0)).flatten

/-- Modelled from the spec: the whole-file encoder, absent from src/
(spec section 6 requires it to be the byte-exact left inverse of decode,
so each section mirrors the layout read_uge reads, the wavetable filler
byte included only under the decoder's own version < 3 condition). -/
def encodeSong (s : UgeSong) : List Nat :=
  write_u32 s.version ++
  write_shortstring (utf8Encode s.name) ++
  write_shortstring (utf8Encode s.artist) ++
  write_shortstring (utf8Encode s.comment) ++
  (s.duty_instruments.map (encDuty s.version)).flatten ++
  (s.wave_instruments.map (encWave s.version)).flatten ++
  (s.noise_instruments.map (encNoise s.version)).flatten ++
  s.wavetable_nibbles.flatten ++
  (if s.version < 3 then [0] else []) ++
  write_u32 s.initial_tpr ++
  (if 6 ≤ s.version then
    write_bool (s.timer_tempo_enabled.getD false) ++
    write_u32 (s.timer_tempo_divider.getD 0)
  else []) ++
  write_u32 s.patterns.length ++
  (s.patterns.map (encPattern s.version)).flatten ++
  encOrderChannel s.orders.duty1 ++ encOrderChannel s.orders.duty2 ++
  encOrderChannel s.orders.wave ++ encOrderChannel s.orders.noise ++
  (s.routines.map (fun r => write_string (utf8Encode r))).flatten

/-! ## Validity of a song record

A valid song is one whose field values fit the fixed-size cells of the
format for its version: the notion of a "valid Song record" quantified
over by the spec's round-trip property. -/

/-- Does a value fit an unsigned byte? -/
def u8ok (n : Nat) : Bool := n < 256

/-- Does a value fit an unsigned 32-bit word? -/
def u32ok (n : Nat) : Bool := n < 4294967296

/-- A present field fitting a byte. -/
def optU8 (o : Option Nat) : Bool :=
  match o with
  | some a => u8ok a
  | none => false

/-- A present field fitting a 32-bit word. -/
def optU32 (o : Option Nat) : Bool :=
  match o with
  | some a => u32ok a
  | none => false

/-- A valid code point: below 0x110000 and not a surrogate (Python
str.encode of utf-8 would fail on surrogates). -/
def validCodepoint (c : Nat) : Bool :=
  c < 1114112 && (c < 55296 || 57343 < c)

/-- A string whose code points are all encodable. -/
def validStr (cs : List Nat) : Bool := cs.all validCodepoint

/-- A string fitting a 255-byte shortstring cell. -/
def validStr255 (cs : List Nat) : Bool :=
  validStr cs && (utf8Encode cs).length ≤ 255

/-- A string with no trailing space code point (read_string strips
trailing space bytes, so text ending in spaces cannot round-trip). -/
def noTrailingSpace (cs : List Nat) : Bool :=
  match cs.getLast? with
  | some c => c ≠ 32
  | none => true

/-- A valid routine string: encodable, length-word in range, and no
trailing spaces. -/
def validRoutine (cs : List Nat) : Bool :=
  validStr cs && (utf8Encode cs).length < 4294967296 && noTrailingSpace cs

/-- A valid subpattern row. -/
def validInstRow (r : InstrumentRow) : Bool :=
  u32ok r.note && u32ok r.jump && u32ok r.effect_code && u8ok r.effect_param

/-- The version-dependent coherence of the subpattern fields: versions
< 6 always carry 64 rows and no flag; version ≥ 6 carries the flag, and
rows exactly when it is set. -/
def validSub (version : Nat) (i : Instrument) : Bool :=
  if version < 6 then
    i.subpattern_enabled = none &&
      (match i.rows with
       | some rs => rs.length = 64 && rs.all validInstRow
       | none => false)
  else
    match i.subpattern_enabled, i.rows with
    | some true, some rs => rs.length = 64 && rs.all validInstRow
    | some false, none => true
    | _, _ => false

/-- A valid tone (duty) instrument record for a version. -/
def validDuty (version : Nat) (i : Instrument) : Bool :=
  i.type = 0 && validStr255 i.name && u32ok i.length &&
  optU8 i.initial_volume && optU32 i.volume_sweep_dir &&
  optU8 i.volume_sweep_change && optU32 i.freq_sweep_time &&
  optU32 i.sweep_enabled && optU32 i.freq_sweep_shift &&
  optU8 i.duty_cycle && i.volume.isNone && i.wave_index.isNone &&
  i.noise_mode.isNone && validSub version i

/-- A valid wave instrument record for a version. -/
def validWave (version : Nat) (i : Instrument) : Bool :=
  i.type = 1 && validStr255 i.name && u32ok i.length &&
  i.initial_volume.isNone && i.volume_sweep_dir.isNone &&
  i.volume_sweep_change.isNone && i.freq_sweep_time.isNone &&
  i.sweep_enabled.isNone && i.freq_sweep_shift.isNone &&
  i.duty_cycle.isNone && optU32 i.volume && optU32 i.wave_index &&
  i.noise_mode.isNone && validSub version i

/-- A valid noise instrument record for a version: the noise mode is
present exactly for versions < 6. -/
def validNoise (version : Nat) (i : Instrument) : Bool :=
  i.type = 2 && validStr255 i.name && u32ok i.length &&
  optU8 i.initial_volume && optU32 i.volume_sweep_dir &&
  optU8 i.volume_sweep_change && i.freq_sweep_time.isNone &&
  i.sweep_enabled.isNone && i.freq_sweep_shift.isNone &&
  i.duty_cycle.isNone && i.volume.isNone && i.wave_index.isNone &&
  (if version < 6 then optU32 i.noise_mode else i.noise_mode.isNone) &&
  validSub version i

/-- A valid pattern row. -/
def validPatternRow (r : PatternRow) : Bool :=
  u32ok r.note && u32ok r.instrument_val && u32ok r.effect_code &&
  u8ok r.effect_param

/-- A valid pattern: index in range and exactly 64 valid rows. -/
def validPattern (p : Pattern) : Bool :=
  u32ok p.index && p.rows.length = 64 && p.rows.all validPatternRow

/-- A valid order channel: the stored length-plus-one word fits 32 bits
and every index does too. -/
def validChannel (ch : List Nat) : Bool :=
  ch.length + 1 < 4294967296 && ch.all u32ok

/-- A valid Song record for its declared version (5 or 6): every field
fits its cell and the version-conditional fields are present exactly when
the layout carries them. -/
def songValid (s : UgeSong) : Bool :=
  (s.version = 5 || s.version = 6) &&
  validStr255 s.name && validStr255 s.artist && validStr255 s.comment &&
  s.duty_instruments.length = 15 &&
  s.duty_instruments.all (validDuty s.version) &&
  s.wave_instruments.length = 15 &&
  s.wave_instruments.all (validWave s.version) &&
  s.noise_instruments.length = 15 &&
  s.noise_instruments.all (validNoise s.version) &&
  s.wavetable_nibbles.length = 16 &&
  s.wavetable_nibbles.all (fun w => w.length = 32 && w.all u8ok) &&
  u32ok s.initial_tpr &&
  (if 6 ≤ s.version then
    (match s.timer_tempo_enabled, s.timer_tempo_divider with
     | some _, some d => u32ok d
     | _, _ => false)
  else s.timer_tempo_enabled.isNone && s.timer_tempo_divider.isNone) &&
  s.patterns.length < 4294967296 &&
  s.patterns.all (validPattern) &&
  validChannel s.orders.duty1 && validChannel s.orders.duty2 &&
  validChannel s.orders.wave && validChannel s.orders.noise &&
  s.routines.length = 16 && s.routines.all validRoutine

/-! ## Concrete demonstration records

A small fully concrete valid song per supported version, used to
instantiate the general theorems on closed inputs. -/

/-- A concrete subpattern row. -/
def demoRow : InstrumentRow := ⟨90, 0, 0, 0⟩

/-- A concrete v6 duty instrument (subpattern disabled). -/
def demoDuty6 : Instrument :=
  ⟨0, [100], 0, false, some 15, some 0, some 0, some 0, some 0, some 0,
   some 2, none, none, none, some false, none⟩

/-- A concrete v6 wave instrument. -/
def demoWave6 : Instrument :=
  ⟨1, [119], 0, false, none, none, none, none, none, none, none,
   some 3, some 0, none, some false, none⟩

/-- A concrete v6 noise instrument. -/
def demoNoise6 : Instrument :=
  ⟨2, [110], 0, false, some 15, some 1, some 0, none, none, none,
   none, none, none, none, some false, none⟩

/-- A concrete v5 duty instrument (unconditional 64-row subpattern). -/
def demoDuty5 : Instrument :=
  ⟨0, [100], 0, false, some 15, some 0, some 0, some 0, some 0, some 0,
   some 2, none, none, none, none, some (List.replicate 64 demoRow)⟩

/-- A concrete v5 wave instrument. -/
def demoWave5 : Instrument :=
  ⟨1, [119], 0, false, none, none, none, none, none, none, none,
   some 3, some 0, none, none, some (List.replicate 64 demoRow)⟩

/-- A concrete v5 noise instrument (noise mode present below v6). -/
def demoNoise5 : Instrument :=
  ⟨2, [110], 0, false, some 15, some 1, some 0, none, none, none,
   none, none, none, some 0, none, some (List.replicate 64 demoRow)⟩

/-- A concrete 64-row pattern. -/
def demoPattern : Pattern := ⟨0, List.replicate 64 ⟨90, 0, 23040, 0⟩⟩

/-- A concrete valid version-6 song. -/
def demoSong6 : UgeSong :=
  ⟨6, [84], [65], [67], List.replicate 15 demoDuty6,
   List.replicate 15 demoWave6, List.replicate 15 demoNoise6,
   List.replicate 16 (List.replicate 32 0), 7, some false, some 0,
   [demoPattern], ⟨[0], [0], [0], [0]⟩, List.replicate 16 []⟩

/-- A concrete valid version-5 song. -/
def demoSong5 : UgeSong :=
  ⟨5, [84], [65], [67], List.replicate 15 demoDuty5,
   List.replicate 15 demoWave5, List.replicate 15 demoNoise5,
   List.replicate 16 (List.replicate 32 0), 7, none, none,
   [demoPattern], ⟨[0], [0], [0], [0]⟩, List.replicate 16 []⟩

/-! ## Primitive reader lemmas -/

theorem ebind_ok {α β : Type} (a : α) (f : α → Except PErr β) :
    (Except.ok a >>= f : Except PErr β) = f a := rfl

theorem epure_def {α : Type} (a : α) : (pure a : Except PErr α) = Except.ok a := rfl

/-- A read of n bytes from a stream holding at least n bytes succeeds and
returns exactly those bytes (no zero-filling). -/
theorem read_exact_ok (n : Nat) (ctx : String) (s : ByteStream)
    (h : n ≤ s.data.length) :
    read_exact n ctx s = .ok (s.data.take n, ⟨s.data.drop n, s.pos + n⟩) := by
  simp [read_exact, h]

theorem read_exact_ok_mk (n : Nat) (ctx : String) (data : List Nat)
    (pos : Nat) (h : n ≤ data.length) :
    read_exact n ctx ⟨data, pos⟩ = .ok (data.take n, ⟨data.drop n, pos + n⟩) :=
  read_exact_ok n ctx ⟨data, pos⟩ h

theorem read_exact_append (n : Nat) (ctx : String) (bs rest : List Nat)
    (p : Nat) (h : bs.length = n) :
    read_exact n ctx ⟨bs ++ rest, p⟩ = .ok (bs, ⟨rest, p + n⟩) := by
  simp only [read_exact, List.length_append]
  rw [if_pos (by omega), List.take_left' h, List.drop_left' h]

theorem read_u8_cons (ctx : String) (b : Nat) (rest : List Nat) (p : Nat) :
    read_u8 ctx ⟨b :: rest, p⟩ = .ok (b, ⟨rest, p + 1⟩) := by
  have h := read_exact_append 1 ctx [b] rest p rfl
  simp only [List.singleton_append] at h
  rw [read_u8, h]
  rfl

theorem read_u8_write (ctx : String) (v : Nat) (rest : List Nat) (p : Nat)
    (h : v < 256) :
    read_u8 ctx ⟨write_u8 v ++ rest, p⟩ = .ok (v, ⟨rest, p + 1⟩) := by
  have hv : v % 256 = v := Nat.mod_eq_of_lt h
  simp [write_u8, hv, read_u8_cons]

theorem read_u32_quad (ctx : String) (a b c d : Nat) (rest : List Nat) (p : Nat) :
    read_u32 ctx ⟨a :: b :: c :: d :: rest, p⟩ =
      .ok (a + 256 * (b + 256 * (c + 256 * d)), ⟨rest, p + 4⟩) := by
  have h := read_exact_append 4 ctx [a, b, c, d] rest p rfl
  simp only [List.cons_append, List.nil_append] at h
  rw [read_u32, h]
  rfl

theorem read_u32_write (ctx : String) (v : Nat) (rest : List Nat) (p : Nat)
    (h : v < 4294967296) :
    read_u32 ctx ⟨write_u32 v ++ rest, p⟩ = .ok (v, ⟨rest, p + 4⟩) := by
  have hq := read_u32_quad ctx (v % 256) (v / 256 % 256) (v / 65536 % 256)
    (v / 16777216 % 256) rest p
  have hv : v % 256 + 256 * (v / 256 % 256 + 256 * (v / 65536 % 256 +
      256 * (v / 16777216 % 256))) = v := by omega
  simpa [write_u32, hv] using hq

theorem read_bool_write (ctx : String) (b : Bool) (rest : List Nat) (p : Nat) :
    read_bool_u8 ctx ⟨write_bool b ++ rest, p⟩ = .ok (b, ⟨rest, p + 1⟩) := by
  cases b <;>
    simp [read_bool_u8, write_bool, write_u8, read_u8_cons, ebind_ok, epure_def]

theorem read_i8_cons (ctx : String) (b : Nat) (rest : List Nat) (p : Nat) :
    read_i8 ctx ⟨b :: rest, p⟩ =
      .ok (if b < 128 then (b : Int) else (b : Int) - 256, ⟨rest, p + 1⟩) := by
  have h := read_exact_append 1 ctx [b] rest p rfl
  simp only [List.singleton_append] at h
  rw [read_i8, h]
  rfl


/-! ## Utf-8 round-trip lemmas -/

theorem utf8Step_snd_length (b0 : Nat) (bs : List Nat) :
    (utf8Step b0 bs).2.length ≤ bs.length := by
  rw [utf8Step.eq_def]
  repeat' split
  all_goals simp_all
  all_goals omega

theorem decodeUtf8Fuel_eq (f : Nat) (l : List Nat) (h : l.length ≤ f) :
    decodeUtf8Fuel f l = decodeUtf8Fuel l.length l := by
  induction f using Nat.strong_induction_on generalizing l with
  | _ f ih =>
    cases f with
    | zero =>
      cases l with
      | nil => rfl
      | cons a t => simp at h
    | succ n =>
      cases l with
      | nil => rfl
      | cons b0 bs =>
        have hlen : bs.length ≤ n := by
          simp only [List.length_cons] at h
          omega
        have hstep := utf8Step_snd_length b0 bs
        rw [List.length_cons, decodeUtf8Fuel, decodeUtf8Fuel]
        rw [ih n (by omega) _ (by omega),
          ih bs.length (by omega) _ (by omega)]

theorem decodeUtf8Replace_cons (b0 : Nat) (bs : List Nat) :
    decodeUtf8Replace (b0 :: bs) =
      (utf8Step b0 bs).1 ++ decodeUtf8Replace (utf8Step b0 bs).2 := by
  rw [decodeUtf8Replace, List.length_cons, decodeUtf8Fuel, decodeUtf8Replace]
  rw [decodeUtf8Fuel_eq bs.length (utf8Step b0 bs).2 (utf8Step_snd_length b0 bs)]

theorem utf8Step_enc2 (c : Nat) (h1 : 128 ≤ c) (h2 : c < 2048) (bs : List Nat) :
    utf8Step (192 + c / 64) ((128 + c % 64) :: bs) = ([c], bs) := by
  have hcont : isCont (128 + c % 64) = true := by
    simp only [isCont, Bool.and_eq_true, decide_eq_true_eq]
    omega
  rw [utf8Step.eq_def]
  simp only [hcont, if_true]
  rw [if_neg (by omega), if_neg (by omega), if_pos (by omega)]
  have hv : (192 + c / 64 - 192) * 64 + (128 + c % 64 - 128) = c := by omega
  rw [hv]

theorem utf8Step_enc3 (c : Nat) (h1 : 2048 ≤ c) (h2 : c < 65536)
    (hs : c < 55296 ∨ 57343 < c) (bs : List Nat) :
    utf8Step (224 + c / 4096) ((128 + c / 64 % 64) :: (128 + c % 64) :: bs) =
      ([c], bs) := by
  have hcond : (if 224 + c / 4096 = 224 then
      160 ≤ 128 + c / 64 % 64 && 128 + c / 64 % 64 ≤ 191
    else if 224 + c / 4096 = 237 then
      128 ≤ 128 + c / 64 % 64 && 128 + c / 64 % 64 ≤ 159
    else isCont (128 + c / 64 % 64)) = true := by
    by_cases he0 : c / 4096 = 0
    · rw [if_pos (by omega)]
      simp only [Bool.and_eq_true, decide_eq_true_eq]
      omega
    · by_cases he13 : c / 4096 = 13
      · rw [if_neg (by omega), if_pos (by omega)]
        simp only [Bool.and_eq_true, decide_eq_true_eq]
        omega
      · rw [if_neg (by omega), if_neg (by omega)]
        simp only [isCont, Bool.and_eq_true, decide_eq_true_eq]
        omega
  have hcont2 : isCont (128 + c % 64) = true := by
    simp only [isCont, Bool.and_eq_true, decide_eq_true_eq]
    omega
  rw [utf8Step.eq_def]
  simp only [hcond, hcont2, Bool.and_self, if_true]
  rw [if_neg (by omega), if_neg (by omega), if_neg (by omega),
    if_pos (by omega)]
  have hv : (224 + c / 4096 - 224) * 4096 + (128 + c / 64 % 64 - 128) * 64 +
      (128 + c % 64 - 128) = c := by omega
  rw [hv]

theorem utf8Step_enc4 (c : Nat) (h1 : 65536 ≤ c) (h2 : c < 1114112)
    (bs : List Nat) :
    utf8Step (240 + c / 262144)
      ((128 + c / 4096 % 64) :: (128 + c / 64 % 64) :: (128 + c % 64) :: bs) =
      ([c], bs) := by
  have hcond : (if 240 + c / 262144 = 240 then
      144 ≤ 128 + c / 4096 % 64 && 128 + c / 4096 % 64 ≤ 191
    else if 240 + c / 262144 = 244 then
      128 ≤ 128 + c / 4096 % 64 && 128 + c / 4096 % 64 ≤ 143
    else isCont (128 + c / 4096 % 64)) = true := by
    by_cases hf0 : c / 262144 = 0
    · rw [if_pos (by omega)]
      simp only [Bool.and_eq_true, decide_eq_true_eq]
      omega
    · by_cases hf4 : c / 262144 = 4
      · rw [if_neg (by omega), if_pos (by omega)]
        simp only [Bool.and_eq_true, decide_eq_true_eq]
        omega
      · rw [if_neg (by omega), if_neg (by omega)]
        simp only [isCont, Bool.and_eq_true, decide_eq_true_eq]
        omega
  have hcont2 : isCont (128 + c / 64 % 64) = true := by
    simp only [isCont, Bool.and_eq_true, decide_eq_true_eq]
    omega
  have hcont3 : isCont (128 + c % 64) = true := by
    simp only [isCont, Bool.and_eq_true, decide_eq_true_eq]
    omega
  rw [utf8Step.eq_def]
  simp only [hcond, hcont2, hcont3, Bool.and_self, if_true]
  rw [if_neg (by omega), if_neg (by omega), if_neg (by omega),
    if_neg (by omega), if_pos (by omega)]
  have hv : (240 + c / 262144 - 240) * 262144 + (128 + c / 4096 % 64 - 128) * 4096 +
      (128 + c / 64 % 64 - 128) * 64 + (128 + c % 64 - 128) = c := by omega
  rw [hv]

theorem decode_encChar (c : Nat) (h : validCodepoint c = true) (bs : List Nat) :
    decodeUtf8Replace (utf8EncodeChar c ++ bs) = c :: decodeUtf8Replace bs := by
  simp only [validCodepoint, Bool.and_eq_true, Bool.or_eq_true,
    decide_eq_true_eq] at h
  obtain ⟨hlt, hsur⟩ := h
  by_cases h1 : c < 128
  · simp only [utf8EncodeChar, if_pos h1, List.cons_append, List.nil_append]
    rw [decodeUtf8Replace_cons]
    rw [show utf8Step c bs = ([c], bs) by rw [utf8Step.eq_def, if_pos h1]]
    rfl
  · by_cases h2 : c < 2048
    · simp only [utf8EncodeChar, if_neg h1, if_pos h2, List.cons_append,
        List.nil_append]
      rw [decodeUtf8Replace_cons, utf8Step_enc2 c (by omega) h2 bs]
      rfl
    · by_cases h3 : c < 65536
      · simp only [utf8EncodeChar, if_neg h1, if_neg h2, if_pos h3,
          List.cons_append, List.nil_append]
        rw [decodeUtf8Replace_cons, utf8Step_enc3 c (by omega) h3 hsur bs]
        rfl
      · simp only [utf8EncodeChar, if_neg h1, if_neg h2, if_neg h3,
          List.cons_append, List.nil_append]
        rw [decodeUtf8Replace_cons, utf8Step_enc4 c (by omega) hlt bs]
        rfl

/-- Decoding inverts encoding on strings of valid code points. -/
theorem decode_utf8Encode (cs : List Nat) (h : validStr cs = true) :
    decodeUtf8Replace (utf8Encode cs) = cs := by
  induction cs with
  | nil => rfl
  | cons c t ih =>
    simp only [validStr, List.all_cons, Bool.and_eq_true] at h
    have hstep := decode_encChar c h.1 (utf8Encode t)
    have hrec : decodeUtf8Replace (utf8Encode t) = t := by
      apply ih
      simp only [validStr]
      exact h.2
    calc decodeUtf8Replace (utf8Encode (c :: t))
        = decodeUtf8Replace (utf8EncodeChar c ++ utf8Encode t) := by
          simp only [utf8Encode, List.map_cons, List.flatten_cons]
      _ = c :: decodeUtf8Replace (utf8Encode t) := hstep
      _ = c :: t := by rw [hrec]

theorem utf8EncodeChar_ne_nil (c : Nat) : utf8EncodeChar c ≠ [] := by
  rw [utf8EncodeChar.eq_def]
  repeat' split
  all_goals simp

theorem utf8Encode_cons_ne_nil (c : Nat) (t : List Nat) :
    utf8Encode (c :: t) ≠ [] := by
  simp only [utf8Encode, List.map_cons, List.flatten_cons]
  intro h
  exact utf8EncodeChar_ne_nil c (List.append_eq_nil.mp h).1

theorem utf8EncodeChar_getLast_ne_32 (c : Nat) (hc : c ≠ 32) (x : Nat)
    (h : (utf8EncodeChar c).getLast? = some x) : x ≠ 32 := by
  rw [utf8EncodeChar.eq_def] at h
  by_cases h1 : c < 128
  · rw [if_pos h1] at h
    simp only [List.getLast?_singleton, Option.some.injEq] at h
    omega
  · rw [if_neg h1] at h
    by_cases h2 : c < 2048
    · rw [if_pos h2] at h
      simp only [List.getLast?_cons_cons, List.getLast?_singleton,
        Option.some.injEq] at h
      omega
    · rw [if_neg h2] at h
      by_cases h3 : c < 65536
      · rw [if_pos h3] at h
        simp only [List.getLast?_cons_cons, List.getLast?_singleton,
          Option.some.injEq] at h
        omega
      · rw [if_neg h3] at h
        simp only [List.getLast?_cons_cons, List.getLast?_singleton,
          Option.some.injEq] at h
        omega

theorem utf8Encode_getLast_ne_32 (cs : List Nat)
    (h : noTrailingSpace cs = true) (x : Nat)
    (hx : (utf8Encode cs).getLast? = some x) : x ≠ 32 := by
  induction cs with
  | nil => simp [utf8Encode] at hx
  | cons c t ih =>
    cases t with
    | nil =>
      simp only [noTrailingSpace, List.getLast?_singleton,
        decide_eq_true_eq] at h
      have : utf8Encode [c] = utf8EncodeChar c := by
        simp [utf8Encode]
      rw [this] at hx
      exact utf8EncodeChar_getLast_ne_32 c (by simpa using h) x hx
    | cons d t' =>
      have hrest : noTrailingSpace (d :: t') = true := by
        simpa only [noTrailingSpace, List.getLast?_cons_cons] using h
      apply ih hrest
      have hsplit : utf8Encode (c :: d :: t') =
          utf8EncodeChar c ++ utf8Encode (d :: t') := by
        simp [utf8Encode]
      rw [hsplit, List.getLast?_append] at hx
      cases hlast : (utf8Encode (d :: t')).getLast? with
      | none =>
        exfalso
        apply utf8Encode_cons_ne_nil d t'
        exact List.getLast?_eq_none_iff.mp hlast
      | some y =>
        rw [hlast] at hx
        simp only [Option.or_some, Option.some.injEq] at hx
        rw [hx]

theorem dropTrailingSpaces_of_getLast (l : List Nat)
    (h : ∀ x, l.getLast? = some x → x ≠ 32) :
    dropTrailingSpaces l = l := by
  rw [dropTrailingSpaces]
  cases hl : l.reverse with
  | nil =>
    have hnil : l = [] := by simpa using congrArg List.reverse hl
    subst hnil
    rfl
  | cons a t =>
    have ha : a ≠ 32 := by
      apply h
      rw [show l.getLast? = l.reverse.head? from (List.head?_reverse l).symm, hl]
      rfl
    rw [List.dropWhile_cons_of_neg (by simpa using ha)]
    rw [show l = (a :: t).reverse by
      simpa using congrArg List.reverse hl]

theorem dropTrailingSpaces_utf8Encode (cs : List Nat)
    (h : noTrailingSpace cs = true) :
    dropTrailingSpaces (utf8Encode cs) = utf8Encode cs :=
  dropTrailingSpaces_of_getLast _ (utf8Encode_getLast_ne_32 cs h)

theorem read_shortstring_write (ctx : String) (cs rest : List Nat) (p : Nat)
    (h : validStr255 cs = true) :
    read_shortstring ctx ⟨write_shortstring (utf8Encode cs) ++ rest, p⟩ =
      .ok (cs, ⟨rest, p + 256⟩) := by
  simp only [validStr255, Bool.and_eq_true, decide_eq_true_eq] at h
  obtain ⟨hv, hlen⟩ := h
  have htake : (utf8Encode cs).take 255 = utf8Encode cs :=
    List.take_of_length_le hlen
  have hws : write_shortstring (utf8Encode cs) =
      (utf8Encode cs).length ::
        ((utf8Encode cs) ++ List.replicate (255 - (utf8Encode cs).length) 0) := by
    simp only [write_shortstring, htake, write_u8,
      Nat.mod_eq_of_lt (by omega : (utf8Encode cs).length < 256)]
    rfl
  rw [hws]
  rw [read_shortstring]
  rw [show ((utf8Encode cs).length ::
      (utf8Encode cs ++ List.replicate (255 - (utf8Encode cs).length) 0)) ++ rest =
    (utf8Encode cs).length ::
      ((utf8Encode cs ++ List.replicate (255 - (utf8Encode cs).length) 0) ++ rest)
    from rfl]
  rw [read_u8_cons]
  rw [ebind_ok]
  simp only []
  have hlen2 : (utf8Encode cs ++
      List.replicate (255 - (utf8Encode cs).length) 0).length = 255 := by
    simp only [List.length_append, List.length_replicate]
    omega
  rw [read_exact_append 255 _ _ rest (p + 1) hlen2]
  rw [ebind_ok]
  simp only []
  rw [List.take_left' rfl]
  rw [decode_utf8Encode cs hv]
  rfl

theorem read_string_write (ctx : String) (cs rest : List Nat) (p : Nat)
    (h : validRoutine cs = true) :
    read_string ctx ⟨write_string (utf8Encode cs) ++ rest, p⟩ =
      .ok (cs, ⟨rest, p + 4 + (utf8Encode cs).length⟩) := by
  simp only [validRoutine, Bool.and_eq_true, decide_eq_true_eq] at h
  obtain ⟨⟨hv, hlen⟩, hsp⟩ := h
  rw [read_string, write_string, List.append_assoc]
  rw [read_u32_write _ _ _ _ hlen]
  rw [ebind_ok]
  simp only []
  rw [read_exact_append _ _ _ rest _ rfl]
  rw [ebind_ok]
  simp only []
  rw [dropTrailingSpaces_utf8Encode cs hsp]
  rw [decode_utf8Encode cs hv]
  rfl

/-! ## Row-block round-trip lemmas -/

theorem parseRowsN_enc (ctx : String) (rows : List InstrumentRow)
    (rest : List Nat) (p : Nat) (h : rows.all validInstRow = true) :
    parseRowsN ctx rows.length ⟨(rows.map encInstrumentRow).flatten ++ rest, p⟩ =
      .ok (rows, ⟨rest, p + 17 * rows.length⟩) := by
  induction rows generalizing p with
  | nil => simp [parseRowsN]
  | cons r t ih =>
    simp only [List.all_cons, Bool.and_eq_true] at h
    obtain ⟨hr, ht⟩ := h
    simp only [validInstRow, u32ok, u8ok, Bool.and_eq_true,
      decide_eq_true_eq] at hr
    obtain ⟨⟨⟨h1, h2⟩, h3⟩, h4⟩ := hr
    obtain ⟨note, jump, ec, ep⟩ := r
    simp only [List.map_cons, List.flatten_cons, List.length_cons]
    rw [parseRowsN]
    simp only [encInstrumentRow, List.append_assoc]
    rw [read_u32_write _ _ _ _ h1]
    rw [ebind_ok]
    simp only []
    rw [read_u32_write _ _ _ _ (by norm_num)]
    rw [ebind_ok]
    simp only []
    rw [read_u32_write _ _ _ _ h2]
    rw [ebind_ok]
    simp only []
    rw [read_u32_write _ _ _ _ h3]
    rw [ebind_ok]
    simp only []
    rw [read_u8_write _ _ _ _ h4]
    rw [ebind_ok]
    simp only []
    rw [ih _ ht]
    rw [ebind_ok]
    simp only []
    rw [show p + 4 + 4 + 4 + 4 + 1 + 17 * t.length =
      p + 17 * (t.length + 1) by omega]
    rfl

theorem skipI8N_drop (ctx : String) (n : Nat) (s : ByteStream)
    (h : n ≤ s.data.length) :
    skipI8N ctx n s = .ok ((), ⟨s.data.drop n, s.pos + n⟩) := by
  induction n generalizing s with
  | zero => simp [skipI8N]
  | succ m ih =>
    obtain ⟨data, pos⟩ := s
    cases data with
    | nil => simp at h
    | cons b t =>
      rw [skipI8N]
      rw [read_i8_cons]
      rw [ebind_ok]
      simp only []
      rw [ih ⟨t, pos + 1⟩ (by
        simpa using Nat.le_of_succ_le_succ (by simpa using h))]
      simp only [List.drop_succ_cons]
      rw [show pos + 1 + m = pos + (m + 1) by omega]

theorem parse_instrument_rows_enc6 (ctx : String) (rows : List InstrumentRow)
    (rest : List Nat) (p : Nat) (h : rows.all validInstRow = true)
    (hlen : rows.length = 64) :
    parse_instrument_rows 6 ctx ⟨encInstrumentRows 6 rows ++ rest, p⟩ =
      .ok (rows, ⟨rest, p + 1088⟩) := by
  rw [parse_instrument_rows, encInstrumentRows]
  rw [if_neg (by norm_num)]
  rw [List.append_nil]
  rw [show (64 : Nat) = rows.length from hlen.symm]
  rw [parseRowsN_enc ctx rows rest p h]
  rw [ebind_ok]
  simp only []
  rw [if_neg (by norm_num)]
  rw [hlen]
  rfl

theorem parse_instrument_rows_enc5 (ctx : String) (rows : List InstrumentRow)
    (rest : List Nat) (p : Nat) (h : rows.all validInstRow = true)
    (hlen : rows.length = 64) :
    parse_instrument_rows 5 ctx ⟨encInstrumentRows 5 rows ++ rest, p⟩ =
      .ok (rows, ⟨rest, p + 1094⟩) := by
  rw [parse_instrument_rows, encInstrumentRows]
  rw [if_pos (by norm_num)]
  rw [List.append_assoc]
  rw [show (64 : Nat) = rows.length from hlen.symm]
  rw [parseRowsN_enc ctx rows _ p h]
  rw [ebind_ok]
  simp only []
  rw [if_pos (by norm_num)]
  rw [skipI8N_drop _ 6 _ (by simp)]
  rw [ebind_ok]
  simp only []
  rw [List.drop_left' (by simp)]
  rw [hlen]
  rw [show p + 17 * 64 + 6 = p + 1094 by omega]
  rfl

/-! ## Validity unpacking and length helpers -/

theorem optU8_some (o : Option Nat) (h : optU8 o = true) :
    ∃ a, o = some a ∧ a < 256 := by
  cases o with
  | none => simp [optU8] at h
  | some a =>
    refine ⟨a, rfl, ?_⟩
    simpa [optU8, u8ok] using h

theorem optU32_some (o : Option Nat) (h : optU32 o = true) :
    ∃ a, o = some a ∧ a < 4294967296 := by
  cases o with
  | none => simp [optU32] at h
  | some a =>
    refine ⟨a, rfl, ?_⟩
    simpa [optU32, u32ok] using h

theorem validSub6_cases (i : Instrument) (h : validSub 6 i = true) :
    (i.subpattern_enabled = some false ∧ i.rows = none) ∨
    (∃ rs, i.subpattern_enabled = some true ∧ i.rows = some rs ∧
      rs.length = 64 ∧ rs.all validInstRow = true) := by
  rw [validSub, if_neg (by norm_num)] at h
  cases hspe : i.subpattern_enabled with
  | none =>
    rw [hspe] at h
    cases hr : i.rows <;> rw [hr] at h <;> simp at h
  | some b =>
    cases b with
    | false =>
      rw [hspe] at h
      cases hr : i.rows with
      | none => exact Or.inl ⟨rfl, rfl⟩
      | some rs =>
        rw [hr] at h
        simp at h
    | true =>
      rw [hspe] at h
      cases hr : i.rows with
      | none =>
        rw [hr] at h
        simp at h
      | some rs =>
        rw [hr] at h
        simp only [Bool.and_eq_true, decide_eq_true_eq] at h
        exact Or.inr ⟨rs, rfl, rfl, h.1, h.2⟩

theorem validSub5_cases (i : Instrument) (h : validSub 5 i = true) :
    i.subpattern_enabled = none ∧ ∃ rs, i.rows = some rs ∧
      rs.length = 64 ∧ rs.all validInstRow = true := by
  rw [validSub, if_pos (by norm_num)] at h
  simp only [Bool.and_eq_true, decide_eq_true_eq] at h
  obtain ⟨hspe, hrows⟩ := h
  refine ⟨by simpa using hspe, ?_⟩
  cases hr : i.rows with
  | none =>
    rw [hr] at hrows
    simp at hrows
  | some rs =>
    rw [hr] at hrows
    simp only [Bool.and_eq_true, decide_eq_true_eq] at hrows
    exact ⟨rs, rfl, hrows.1, hrows.2⟩

theorem write_u32_length (v : Nat) : (write_u32 v).length = 4 := rfl

theorem write_u8_length (v : Nat) : (write_u8 v).length = 1 := rfl

theorem write_bool_length (b : Bool) : (write_bool b).length = 1 := by
  cases b <;> rfl

theorem write_shortstring_length (bs : List Nat) :
    (write_shortstring bs).length = 256 := by
  simp only [write_shortstring, write_u8, List.length_append,
    List.length_cons, List.length_nil, List.length_take, List.length_replicate]
  omega

theorem encInstrumentRow_length (r : InstrumentRow) :
    (encInstrumentRow r).length = 17 := by
  simp [encInstrumentRow, write_u32, write_u8]

theorem encRows_flatten_length (rows : List InstrumentRow) :
    ((rows.map encInstrumentRow).flatten).length = 17 * rows.length := by
  induction rows with
  | nil => rfl
  | cons r t ih =>
    simp only [List.map_cons, List.flatten_cons, List.length_append,
      encInstrumentRow_length, ih, List.length_cons]
    omega

theorem encInstrumentRows_length (version : Nat) (rows : List InstrumentRow) :
    (encInstrumentRows version rows).length =
      17 * rows.length + (if 4 ≤ version ∧ version < 6 then 6 else 0) := by
  rw [encInstrumentRows]
  by_cases h : 4 ≤ version ∧ version < 6
  · rw [if_pos h, if_pos h]
    simp only [List.length_append, encRows_flatten_length,
      List.length_replicate]
  · rw [if_neg h, if_neg h]
    simp only [List.length_append, encRows_flatten_length, List.length_nil]

/-! ## Instrument round-trip lemmas -/

/-! ## Instrument round-trip lemmas -/

theorem resolveInstType_write (expected : Nat) (ctx : String)
    (rest : List Nat) (p : Nat) (hexp : expected < 4294967296)
    (h8 : 8 ≤ (write_u32 expected ++ rest).length) :
    resolveInstType expected ctx ⟨write_u32 expected ++ rest, p⟩ =
      .ok ((expected, []), ⟨rest, p + 4⟩) := by
  rw [resolveInstType]
  rw [read_exact_ok_mk 8 _ _ _ h8]
  rw [ebind_ok]
  simp only []
  rw [read_u32_write _ _ _ _ hexp]
  rw [ebind_ok]
  simp only []
  rw [if_pos trivial]
  rfl

set_option maxHeartbeats 1000000 in
theorem parseDutyBody_enc6 (ctx : String) (i : Instrument)
    (rest : List Nat) (p : Nat) (h : validDuty 6 i = true) :
    parseDutyBody 6 ctx 0 [] ⟨encDutyTail 6 i ++ rest, p⟩ =
      .ok ((i, []), ⟨rest, p + (encDutyTail 6 i).length⟩) := by
  obtain ⟨ty, nm, ln, le, iv, vsd, vsc, fst, se, fss, dc, vol, wi, nmo, spe, rws⟩ := i
  simp only [validDuty, u32ok, Bool.and_eq_true, decide_eq_true_eq] at h
  obtain ⟨⟨⟨⟨⟨⟨⟨⟨⟨⟨⟨⟨⟨hty, hnm⟩, hln⟩, hiv⟩, hvsd⟩, hvsc⟩, hfst⟩, hse⟩,
    hfss⟩, hdc⟩, hvol⟩, hwi⟩, hnmo⟩, hsub⟩ := h
  subst hty
  obtain ⟨ivv, rfl, hivlt⟩ := optU8_some iv hiv
  obtain ⟨vsdv, rfl, hvsdlt⟩ := optU32_some vsd hvsd
  obtain ⟨vscv, rfl, hvsclt⟩ := optU8_some vsc hvsc
  obtain ⟨fstv, rfl, hfstlt⟩ := optU32_some fst hfst
  obtain ⟨sev, rfl, hselt⟩ := optU32_some se hse
  obtain ⟨fssv, rfl, hfsslt⟩ := optU32_some fss hfss
  obtain ⟨dcv, rfl, hdclt⟩ := optU8_some dc hdc
  have hvol' : vol = none := Option.isNone_iff_eq_none.mp hvol
  have hwi' : wi = none := Option.isNone_iff_eq_none.mp hwi
  have hnmo' : nmo = none := Option.isNone_iff_eq_none.mp hnmo
  subst hvol' hwi' hnmo'
  have h032 : (0 : Nat) < 4294967296 := by norm_num
  rcases validSub6_cases _ hsub with ⟨hspe, hrows⟩ | ⟨rs, hspe, hrows, hrslen, hrsall⟩
  · subst hspe hrows
    simp only [parseDutyBody, encDutyTail, encSubTail, Option.getD_some,
      List.append_assoc, ebind_ok, epure_def,
      if_neg (show ¬ (6 : Nat) < 6 by norm_num),
      if_neg (show ¬ false = true by simp),
      if_pos (show true = true from rfl), if_true, if_false,
      read_shortstring_write _ _ _ _ hnm,
      read_u32_write _ _ _ _ hln, read_bool_write,
      read_u8_write _ _ _ _ hivlt, read_u32_write _ _ _ _ hvsdlt,
      read_u8_write _ _ _ _ hvsclt, read_u32_write _ _ _ _ hfstlt,
      read_u32_write _ _ _ _ hselt, read_u32_write _ _ _ _ hfsslt,
      read_u8_write _ _ _ _ hdclt, read_u32_write _ _ _ _ h032,
      List.append_nil]
    simp only [Except.ok.injEq, Prod.mk.injEq, ByteStream.mk.injEq,
      List.length_append, write_u32_length, write_shortstring_length,
      write_bool_length, write_u8_length, true_and, and_true]
    try omega
  · subst hspe hrows
    simp only [parseDutyBody, encDutyTail, encSubTail, Option.getD_some,
      List.append_assoc, ebind_ok, epure_def,
      if_neg (show ¬ (6 : Nat) < 6 by norm_num),
      if_neg (show ¬ false = true by simp),
      if_pos (show true = true from rfl), if_true, if_false,
      read_shortstring_write _ _ _ _ hnm,
      read_u32_write _ _ _ _ hln, read_bool_write,
      read_u8_write _ _ _ _ hivlt, read_u32_write _ _ _ _ hvsdlt,
      read_u8_write _ _ _ _ hvsclt, read_u32_write _ _ _ _ hfstlt,
      read_u32_write _ _ _ _ hselt, read_u32_write _ _ _ _ hfsslt,
      read_u8_write _ _ _ _ hdclt, read_u32_write _ _ _ _ h032,
      parse_instrument_rows_enc6 _ _ _ _ hrsall hrslen]
    simp only [Except.ok.injEq, Prod.mk.injEq, ByteStream.mk.injEq,
      List.length_append, write_u32_length, write_shortstring_length,
      write_bool_length, write_u8_length, encInstrumentRows_length,
      if_neg (show ¬(4 ≤ 6 ∧ 6 < 6) by norm_num), true_and, and_true]
    try omega

set_option maxHeartbeats 1000000 in
theorem parseDutyBody_enc5 (ctx : String) (i : Instrument)
    (rest : List Nat) (p : Nat) (h : validDuty 5 i = true) :
    parseDutyBody 5 ctx 0 [] ⟨encDutyTail 5 i ++ rest, p⟩ =
      .ok ((i, []), ⟨rest, p + (encDutyTail 5 i).length⟩) := by
  obtain ⟨ty, nm, ln, le, iv, vsd, vsc, fst, se, fss, dc, vol, wi, nmo, spe, rws⟩ := i
  simp only [validDuty, u32ok, Bool.and_eq_true, decide_eq_true_eq] at h
  obtain ⟨⟨⟨⟨⟨⟨⟨⟨⟨⟨⟨⟨⟨hty, hnm⟩, hln⟩, hiv⟩, hvsd⟩, hvsc⟩, hfst⟩, hse⟩,
    hfss⟩, hdc⟩, hvol⟩, hwi⟩, hnmo⟩, hsub⟩ := h
  subst hty
  obtain ⟨ivv, rfl, hivlt⟩ := optU8_some iv hiv
  obtain ⟨vsdv, rfl, hvsdlt⟩ := optU32_some vsd hvsd
  obtain ⟨vscv, rfl, hvsclt⟩ := optU8_some vsc hvsc
  obtain ⟨fstv, rfl, hfstlt⟩ := optU32_some fst hfst
  obtain ⟨sev, rfl, hselt⟩ := optU32_some se hse
  obtain ⟨fssv, rfl, hfsslt⟩ := optU32_some fss hfss
  obtain ⟨dcv, rfl, hdclt⟩ := optU8_some dc hdc
  have hvol' : vol = none := Option.isNone_iff_eq_none.mp hvol
  have hwi' : wi = none := Option.isNone_iff_eq_none.mp hwi
  have hnmo' : nmo = none := Option.isNone_iff_eq_none.mp hnmo
  subst hvol' hwi' hnmo'
  have h032 : (0 : Nat) < 4294967296 := by norm_num
  obtain ⟨hspe, rs, hrows, hrslen, hrsall⟩ := validSub5_cases _ hsub
  subst hspe hrows
  simp only [parseDutyBody, encDutyTail, encSubTail, Option.getD_some,
    List.append_assoc, ebind_ok, epure_def,
    if_pos (show (5 : Nat) < 6 by norm_num), if_true, if_false,
    read_shortstring_write _ _ _ _ hnm,
    read_u32_write _ _ _ _ hln, read_bool_write,
    read_u8_write _ _ _ _ hivlt, read_u32_write _ _ _ _ hvsdlt,
    read_u8_write _ _ _ _ hvsclt, read_u32_write _ _ _ _ hfstlt,
    read_u32_write _ _ _ _ hselt, read_u32_write _ _ _ _ hfsslt,
    read_u8_write _ _ _ _ hdclt, read_u32_write _ _ _ _ h032,
    parse_instrument_rows_enc5 _ _ _ _ hrsall hrslen]
  simp only [Except.ok.injEq, Prod.mk.injEq, ByteStream.mk.injEq,
    List.length_append, write_u32_length, write_shortstring_length,
    write_bool_length, write_u8_length, encInstrumentRows_length,
    if_pos (show 4 ≤ 5 ∧ 5 < 6 by norm_num), true_and, and_true]
  try omega

theorem validDuty_type (v : Nat) (i : Instrument) (h : validDuty v i = true) :
    i.type = 0 := by
  simp only [validDuty, Bool.and_eq_true, decide_eq_true_eq] at h
  exact h.1.1.1.1.1.1.1.1.1.1.1.1.1

theorem encDutyTail_len_ge (v : Nat) (i : Instrument) :
    256 ≤ (encDutyTail v i).length := by
  simp only [encDutyTail, List.length_append, write_shortstring_length]
  omega

theorem parse_duty_instrument_enc (v idx : Nat) (i : Instrument)
    (rest : List Nat) (p : Nat) (hv : v = 5 ∨ v = 6)
    (h : validDuty v i = true) :
    parse_duty_instrument v idx ⟨encDuty v i ++ rest, p⟩ =
      .ok ((i, []), ⟨rest, p + (encDuty v i).length⟩) := by
  have hty := validDuty_type v i h
  have h8 : 8 ≤ (write_u32 0 ++ (encDutyTail v i ++ rest)).length := by
    have := encDutyTail_len_ge v i
    simp only [List.length_append, write_u32_length]
    omega
  rcases hv with rfl | rfl
  · rw [parse_duty_instrument, encDuty, hty, List.append_assoc]
    rw [resolveInstType_write 0 _ _ _ (by norm_num) h8]
    rw [ebind_ok]
    simp only []
    rw [parseDutyBody_enc5 _ _ _ _ h]
    simp only [Except.ok.injEq, Prod.mk.injEq, ByteStream.mk.injEq,
      encDuty, hty, List.length_append, write_u32_length, true_and, and_true]
    try omega
  · rw [parse_duty_instrument, encDuty, hty, List.append_assoc]
    rw [resolveInstType_write 0 _ _ _ (by norm_num) h8]
    rw [ebind_ok]
    simp only []
    rw [parseDutyBody_enc6 _ _ _ _ h]
    simp only [Except.ok.injEq, Prod.mk.injEq, ByteStream.mk.injEq,
      encDuty, hty, List.length_append, write_u32_length, true_and, and_true]
    try omega

set_option maxHeartbeats 1000000 in
theorem parseWaveBody_enc6 (ctx : String) (i : Instrument)
    (rest : List Nat) (p : Nat) (h : validWave 6 i = true) :
    parseWaveBody 6 ctx 1 [] ⟨encWaveTail 6 i ++ rest, p⟩ =
      .ok ((i, []), ⟨rest, p + (encWaveTail 6 i).length⟩) := by
  obtain ⟨ty, nm, ln, le, iv, vsd, vsc, fst, se, fss, dc, vol, wi, nmo, spe, rws⟩ := i
  simp only [validWave, u32ok, Bool.and_eq_true, decide_eq_true_eq] at h
  obtain ⟨⟨⟨⟨⟨⟨⟨⟨⟨⟨⟨⟨⟨hty, hnm⟩, hln⟩, hiv⟩, hvsd⟩, hvsc⟩, hfst⟩, hse⟩,
    hfss⟩, hdc⟩, hvol⟩, hwi⟩, hnmo⟩, hsub⟩ := h
  subst hty
  obtain ⟨volv, rfl, hvollt⟩ := optU32_some vol hvol
  obtain ⟨wiv, rfl, hwilt⟩ := optU32_some wi hwi
  have hiv' : iv = none := Option.isNone_iff_eq_none.mp hiv
  have hvsd' : vsd = none := Option.isNone_iff_eq_none.mp hvsd
  have hvsc' : vsc = none := Option.isNone_iff_eq_none.mp hvsc
  have hfst' : fst = none := Option.isNone_iff_eq_none.mp hfst
  have hse' : se = none := Option.isNone_iff_eq_none.mp hse
  have hfss' : fss = none := Option.isNone_iff_eq_none.mp hfss
  have hdc' : dc = none := Option.isNone_iff_eq_none.mp hdc
  have hnmo' : nmo = none := Option.isNone_iff_eq_none.mp hnmo
  subst hiv' hvsd' hvsc' hfst' hse' hfss' hdc' hnmo'
  have h032 : (0 : Nat) < 4294967296 := by norm_num
  have h0256 : (0 : Nat) < 256 := by norm_num
  rcases validSub6_cases _ hsub with ⟨hspe, hrows⟩ | ⟨rs, hspe, hrows, hrslen, hrsall⟩
  · subst hspe hrows
    simp only [parseWaveBody, encWaveTail, encSubTail, Option.getD_some,
      List.append_assoc, ebind_ok, epure_def,
      if_neg (show ¬ (6 : Nat) < 6 by norm_num),
      if_neg (show ¬ false = true by simp),
      if_pos (show true = true from rfl), if_true, if_false,
      read_shortstring_write _ _ _ _ hnm,
      read_u32_write _ _ _ _ hln, read_bool_write,
      read_u8_write _ _ _ _ h0256, read_u32_write _ _ _ _ h032,
      read_u32_write _ _ _ _ hvollt, read_u32_write _ _ _ _ hwilt,
      List.append_nil]
    simp only [Except.ok.injEq, Prod.mk.injEq, ByteStream.mk.injEq,
      List.length_append, write_u32_length, write_shortstring_length,
      write_bool_length, write_u8_length, true_and, and_true]
    try omega
  · subst hspe hrows
    simp only [parseWaveBody, encWaveTail, encSubTail, Option.getD_some,
      List.append_assoc, ebind_ok, epure_def,
      if_neg (show ¬ (6 : Nat) < 6 by norm_num),
      if_neg (show ¬ false = true by simp),
      if_pos (show true = true from rfl), if_true, if_false,
      read_shortstring_write _ _ _ _ hnm,
      read_u32_write _ _ _ _ hln, read_bool_write,
      read_u8_write _ _ _ _ h0256, read_u32_write _ _ _ _ h032,
      read_u32_write _ _ _ _ hvollt, read_u32_write _ _ _ _ hwilt,
      parse_instrument_rows_enc6 _ _ _ _ hrsall hrslen]
    simp only [Except.ok.injEq, Prod.mk.injEq, ByteStream.mk.injEq,
      List.length_append, write_u32_length, write_shortstring_length,
      write_bool_length, write_u8_length, encInstrumentRows_length,
      if_neg (show ¬(4 ≤ 6 ∧ 6 < 6) by norm_num), true_and, and_true]
    try omega

set_option maxHeartbeats 1000000 in
theorem parseWaveBody_enc5 (ctx : String) (i : Instrument)
    (rest : List Nat) (p : Nat) (h : validWave 5 i = true) :
    parseWaveBody 5 ctx 1 [] ⟨encWaveTail 5 i ++ rest, p⟩ =
      .ok ((i, []), ⟨rest, p + (encWaveTail 5 i).length⟩) := by
  obtain ⟨ty, nm, ln, le, iv, vsd, vsc, fst, se, fss, dc, vol, wi, nmo, spe, rws⟩ := i
  simp only [validWave, u32ok, Bool.and_eq_true, decide_eq_true_eq] at h
  obtain ⟨⟨⟨⟨⟨⟨⟨⟨⟨⟨⟨⟨⟨hty, hnm⟩, hln⟩, hiv⟩, hvsd⟩, hvsc⟩, hfst⟩, hse⟩,
    hfss⟩, hdc⟩, hvol⟩, hwi⟩, hnmo⟩, hsub⟩ := h
  subst hty
  obtain ⟨volv, rfl, hvollt⟩ := optU32_some vol hvol
  obtain ⟨wiv, rfl, hwilt⟩ := optU32_some wi hwi
  have hiv' : iv = none := Option.isNone_iff_eq_none.mp hiv
  have hvsd' : vsd = none := Option.isNone_iff_eq_none.mp hvsd
  have hvsc' : vsc = none := Option.isNone_iff_eq_none.mp hvsc
  have hfst' : fst = none := Option.isNone_iff_eq_none.mp hfst
  have hse' : se = none := Option.isNone_iff_eq_none.mp hse
  have hfss' : fss = none := Option.isNone_iff_eq_none.mp hfss
  have hdc' : dc = none := Option.isNone_iff_eq_none.mp hdc
  have hnmo' : nmo = none := Option.isNone_iff_eq_none.mp hnmo
  subst hiv' hvsd' hvsc' hfst' hse' hfss' hdc' hnmo'
  have h032 : (0 : Nat) < 4294967296 := by norm_num
  have h0256 : (0 : Nat) < 256 := by norm_num
  obtain ⟨hspe, rs, hrows, hrslen, hrsall⟩ := validSub5_cases _ hsub
  subst hspe hrows
  simp only [parseWaveBody, encWaveTail, encSubTail, Option.getD_some,
    List.append_assoc, ebind_ok, epure_def,
    if_pos (show (5 : Nat) < 6 by norm_num), if_true, if_false,
    read_shortstring_write _ _ _ _ hnm,
    read_u32_write _ _ _ _ hln, read_bool_write,
    read_u8_write _ _ _ _ h0256, read_u32_write _ _ _ _ h032,
    read_u32_write _ _ _ _ hvollt, read_u32_write _ _ _ _ hwilt,
    parse_instrument_rows_enc5 _ _ _ _ hrsall hrslen]
  simp only [Except.ok.injEq, Prod.mk.injEq, ByteStream.mk.injEq,
    List.length_append, write_u32_length, write_shortstring_length,
    write_bool_length, write_u8_length, encInstrumentRows_length,
    if_pos (show 4 ≤ 5 ∧ 5 < 6 by norm_num), true_and, and_true]
  try omega

theorem validWave_type (v : Nat) (i : Instrument) (h : validWave v i = true) :
    i.type = 1 := by
  simp only [validWave, Bool.and_eq_true, decide_eq_true_eq] at h
  exact h.1.1.1.1.1.1.1.1.1.1.1.1.1

theorem encWaveTail_len_ge (v : Nat) (i : Instrument) :
    256 ≤ (encWaveTail v i).length := by
  simp only [encWaveTail, List.length_append, write_shortstring_length]
  omega

theorem parse_wave_instrument_enc (v idx : Nat) (i : Instrument)
    (rest : List Nat) (p : Nat) (hv : v = 5 ∨ v = 6)
    (h : validWave v i = true) :
    parse_wave_instrument v idx ⟨encWave v i ++ rest, p⟩ =
      .ok ((i, []), ⟨rest, p + (encWave v i).length⟩) := by
  have hty := validWave_type v i h
  have h8 : 8 ≤ (write_u32 1 ++ (encWaveTail v i ++ rest)).length := by
    have := encWaveTail_len_ge v i
    simp only [List.length_append, write_u32_length]
    omega
  rcases hv with rfl | rfl
  · rw [parse_wave_instrument, encWave, hty, List.append_assoc]
    rw [resolveInstType_write 1 _ _ _ (by norm_num) h8]
    rw [ebind_ok]
    simp only []
    rw [parseWaveBody_enc5 _ _ _ _ h]
    simp only [Except.ok.injEq, Prod.mk.injEq, ByteStream.mk.injEq,
      encWave, hty, List.length_append, write_u32_length, true_and, and_true]
    try omega
  · rw [parse_wave_instrument, encWave, hty, List.append_assoc]
    rw [resolveInstType_write 1 _ _ _ (by norm_num) h8]
    rw [ebind_ok]
    simp only []
    rw [parseWaveBody_enc6 _ _ _ _ h]
    simp only [Except.ok.injEq, Prod.mk.injEq, ByteStream.mk.injEq,
      encWave, hty, List.length_append, write_u32_length, true_and, and_true]
    try omega

set_option maxHeartbeats 1000000 in
theorem parseNoiseBody_enc6 (ctx : String) (i : Instrument)
    (rest : List Nat) (p : Nat) (h : validNoise 6 i = true) :
    parseNoiseBody 6 ctx 2 [] ⟨encNoiseTail 6 i ++ rest, p⟩ =
      .ok ((i, []), ⟨rest, p + (encNoiseTail 6 i).length⟩) := by
  obtain ⟨ty, nm, ln, le, iv, vsd, vsc, fst, se, fss, dc, vol, wi, nmo, spe, rws⟩ := i
  simp only [validNoise, u32ok, Bool.and_eq_true, decide_eq_true_eq,
    if_neg (show ¬ (6 : Nat) < 6 by norm_num)] at h
  obtain ⟨⟨⟨⟨⟨⟨⟨⟨⟨⟨⟨⟨⟨hty, hnm⟩, hln⟩, hiv⟩, hvsd⟩, hvsc⟩, hfst⟩, hse⟩,
    hfss⟩, hdc⟩, hvol⟩, hwi⟩, hnmo⟩, hsub⟩ := h
  subst hty
  obtain ⟨ivv, rfl, hivlt⟩ := optU8_some iv hiv
  obtain ⟨vsdv, rfl, hvsdlt⟩ := optU32_some vsd hvsd
  obtain ⟨vscv, rfl, hvsclt⟩ := optU8_some vsc hvsc
  have hfst' : fst = none := Option.isNone_iff_eq_none.mp hfst
  have hse' : se = none := Option.isNone_iff_eq_none.mp hse
  have hfss' : fss = none := Option.isNone_iff_eq_none.mp hfss
  have hdc' : dc = none := Option.isNone_iff_eq_none.mp hdc
  have hvol' : vol = none := Option.isNone_iff_eq_none.mp hvol
  have hwi' : wi = none := Option.isNone_iff_eq_none.mp hwi
  have hnmo' : nmo = none := Option.isNone_iff_eq_none.mp hnmo
  subst hfst' hse' hfss' hdc' hvol' hwi' hnmo'
  have h032 : (0 : Nat) < 4294967296 := by norm_num
  have h0256 : (0 : Nat) < 256 := by norm_num
  rcases validSub6_cases _ hsub with ⟨hspe, hrows⟩ | ⟨rs, hspe, hrows, hrslen, hrsall⟩
  · subst hspe hrows
    simp only [parseNoiseBody, encNoiseTail, encNoiseSubTail, Option.getD_some,
      List.append_assoc, ebind_ok, epure_def,
      if_neg (show ¬ (6 : Nat) < 6 by norm_num),
      if_neg (show ¬ false = true by simp),
      if_pos (show true = true from rfl), if_true, if_false,
      read_shortstring_write _ _ _ _ hnm,
      read_u32_write _ _ _ _ hln, read_bool_write,
      read_u8_write _ _ _ _ hivlt, read_u32_write _ _ _ _ hvsdlt,
      read_u8_write _ _ _ _ hvsclt,
      read_u8_write _ _ _ _ h0256, read_u32_write _ _ _ _ h032,
      List.append_nil]
    simp only [Except.ok.injEq, Prod.mk.injEq, ByteStream.mk.injEq,
      List.length_append, write_u32_length, write_shortstring_length,
      write_bool_length, write_u8_length, true_and, and_true]
    try omega
  · subst hspe hrows
    simp only [parseNoiseBody, encNoiseTail, encNoiseSubTail, Option.getD_some,
      List.append_assoc, ebind_ok, epure_def,
      if_neg (show ¬ (6 : Nat) < 6 by norm_num),
      if_neg (show ¬ false = true by simp),
      if_pos (show true = true from rfl), if_true, if_false,
      read_shortstring_write _ _ _ _ hnm,
      read_u32_write _ _ _ _ hln, read_bool_write,
      read_u8_write _ _ _ _ hivlt, read_u32_write _ _ _ _ hvsdlt,
      read_u8_write _ _ _ _ hvsclt,
      read_u8_write _ _ _ _ h0256, read_u32_write _ _ _ _ h032,
      parse_instrument_rows_enc6 _ _ _ _ hrsall hrslen]
    simp only [Except.ok.injEq, Prod.mk.injEq, ByteStream.mk.injEq,
      List.length_append, write_u32_length, write_shortstring_length,
      write_bool_length, write_u8_length, encInstrumentRows_length,
      if_neg (show ¬(4 ≤ 6 ∧ 6 < 6) by norm_num), true_and, and_true]
    try omega

set_option maxHeartbeats 1000000 in
theorem parseNoiseBody_enc5 (ctx : String) (i : Instrument)
    (rest : List Nat) (p : Nat) (h : validNoise 5 i = true) :
    parseNoiseBody 5 ctx 2 [] ⟨encNoiseTail 5 i ++ rest, p⟩ =
      .ok ((i, []), ⟨rest, p + (encNoiseTail 5 i).length⟩) := by
  obtain ⟨ty, nm, ln, le, iv, vsd, vsc, fst, se, fss, dc, vol, wi, nmo, spe, rws⟩ := i
  simp only [validNoise, u32ok, Bool.and_eq_true, decide_eq_true_eq,
    if_pos (show (5 : Nat) < 6 by norm_num)] at h
  obtain ⟨⟨⟨⟨⟨⟨⟨⟨⟨⟨⟨⟨⟨hty, hnm⟩, hln⟩, hiv⟩, hvsd⟩, hvsc⟩, hfst⟩, hse⟩,
    hfss⟩, hdc⟩, hvol⟩, hwi⟩, hnmo⟩, hsub⟩ := h
  subst hty
  obtain ⟨ivv, rfl, hivlt⟩ := optU8_some iv hiv
  obtain ⟨vsdv, rfl, hvsdlt⟩ := optU32_some vsd hvsd
  obtain ⟨vscv, rfl, hvsclt⟩ := optU8_some vsc hvsc
  obtain ⟨nmov, rfl, hnmolt⟩ := optU32_some nmo hnmo
  have hfst' : fst = none := Option.isNone_iff_eq_none.mp hfst
  have hse' : se = none := Option.isNone_iff_eq_none.mp hse
  have hfss' : fss = none := Option.isNone_iff_eq_none.mp hfss
  have hdc' : dc = none := Option.isNone_iff_eq_none.mp hdc
  have hvol' : vol = none := Option.isNone_iff_eq_none.mp hvol
  have hwi' : wi = none := Option.isNone_iff_eq_none.mp hwi
  subst hfst' hse' hfss' hdc' hvol' hwi'
  have h032 : (0 : Nat) < 4294967296 := by norm_num
  have h0256 : (0 : Nat) < 256 := by norm_num
  obtain ⟨hspe, rs, hrows, hrslen, hrsall⟩ := validSub5_cases _ hsub
  subst hspe hrows
  simp only [parseNoiseBody, encNoiseTail, encNoiseSubTail, Option.getD_some,
    List.append_assoc, ebind_ok, epure_def,
    if_pos (show (5 : Nat) < 6 by norm_num), if_true, if_false,
    read_shortstring_write _ _ _ _ hnm,
    read_u32_write _ _ _ _ hln, read_bool_write,
    read_u8_write _ _ _ _ hivlt, read_u32_write _ _ _ _ hvsdlt,
    read_u8_write _ _ _ _ hvsclt, read_u32_write _ _ _ _ hnmolt,
    read_u8_write _ _ _ _ h0256, read_u32_write _ _ _ _ h032,
    parse_instrument_rows_enc5 _ _ _ _ hrsall hrslen]
  simp only [Except.ok.injEq, Prod.mk.injEq, ByteStream.mk.injEq,
    List.length_append, write_u32_length, write_shortstring_length,
    write_bool_length, write_u8_length, encInstrumentRows_length,
    if_pos (show 4 ≤ 5 ∧ 5 < 6 by norm_num), true_and, and_true]
  try omega

theorem validNoise_type (v : Nat) (i : Instrument) (h : validNoise v i = true) :
    i.type = 2 := by
  simp only [validNoise, Bool.and_eq_true, decide_eq_true_eq] at h
  exact h.1.1.1.1.1.1.1.1.1.1.1.1.1

theorem encNoiseTail_len_ge (v : Nat) (i : Instrument) :
    256 ≤ (encNoiseTail v i).length := by
  simp only [encNoiseTail, List.length_append, write_shortstring_length]
  omega

theorem parse_noise_instrument_enc (v idx : Nat) (i : Instrument)
    (rest : List Nat) (p : Nat) (hv : v = 5 ∨ v = 6)
    (h : validNoise v i = true) :
    parse_noise_instrument v idx ⟨encNoise v i ++ rest, p⟩ =
      .ok ((i, []), ⟨rest, p + (encNoise v i).length⟩) := by
  have hty := validNoise_type v i h
  have h8 : 8 ≤ (write_u32 2 ++ (encNoiseTail v i ++ rest)).length := by
    have := encNoiseTail_len_ge v i
    simp only [List.length_append, write_u32_length]
    omega
  rcases hv with rfl | rfl
  · rw [parse_noise_instrument, encNoise, hty, List.append_assoc]
    rw [resolveInstType_write 2 _ _ _ (by norm_num) h8]
    rw [ebind_ok]
    simp only []
    rw [parseNoiseBody_enc5 _ _ _ _ h]
    simp only [Except.ok.injEq, Prod.mk.injEq, ByteStream.mk.injEq,
      encNoise, hty, List.length_append, write_u32_length, true_and, and_true]
    try omega
  · rw [parse_noise_instrument, encNoise, hty, List.append_assoc]
    rw [resolveInstType_write 2 _ _ _ (by norm_num) h8]
    rw [ebind_ok]
    simp only []
    rw [parseNoiseBody_enc6 _ _ _ _ h]
    simp only [Except.ok.injEq, Prod.mk.injEq, ByteStream.mk.injEq,
      encNoise, hty, List.length_append, write_u32_length, true_and, and_true]
    try omega

/-! ## Section round-trip lemmas -/

theorem parseDutyListN_enc (v : Nat) (hv : v = 5 ∨ v = 6)
    (insts : List Instrument) (start : Nat) (rest : List Nat) (p : Nat)
    (h : insts.all (validDuty v) = true) :
    parseDutyListN v start insts.length
        ⟨(insts.map (encDuty v)).flatten ++ rest, p⟩ =
      .ok (insts, ⟨rest, p + ((insts.map (encDuty v)).flatten).length⟩) := by
  induction insts generalizing start p with
  | nil => simp [parseDutyListN]
  | cons i t ih =>
    simp only [List.all_cons, Bool.and_eq_true] at h
    simp only [List.map_cons, List.flatten_cons, List.length_cons,
      List.append_assoc]
    rw [parseDutyListN]
    rw [parse_duty_instrument_enc v start i _ p hv h.1]
    rw [ebind_ok]
    simp only []
    rw [ih _ _ h.2]
    rw [ebind_ok]
    simp only []
    simp only [epure_def, Except.ok.injEq, Prod.mk.injEq, ByteStream.mk.injEq,
      List.length_append, true_and, and_true]
    omega

theorem parseWaveListN_enc (v : Nat) (hv : v = 5 ∨ v = 6)
    (insts : List Instrument) (start : Nat) (rest : List Nat) (p : Nat)
    (h : insts.all (validWave v) = true) :
    parseWaveListN v start insts.length
        ⟨(insts.map (encWave v)).flatten ++ rest, p⟩ =
      .ok (insts, ⟨rest, p + ((insts.map (encWave v)).flatten).length⟩) := by
  induction insts generalizing start p with
  | nil => simp [parseWaveListN]
  | cons i t ih =>
    simp only [List.all_cons, Bool.and_eq_true] at h
    simp only [List.map_cons, List.flatten_cons, List.length_cons,
      List.append_assoc]
    rw [parseWaveListN]
    rw [parse_wave_instrument_enc v start i _ p hv h.1]
    rw [ebind_ok]
    simp only []
    rw [ih _ _ h.2]
    rw [ebind_ok]
    simp only []
    simp only [epure_def, Except.ok.injEq, Prod.mk.injEq, ByteStream.mk.injEq,
      List.length_append, true_and, and_true]
    omega

theorem parseNoiseListN_enc (v : Nat) (hv : v = 5 ∨ v = 6)
    (insts : List Instrument) (start : Nat) (rest : List Nat) (p : Nat)
    (h : insts.all (validNoise v) = true) :
    parseNoiseListN v start insts.length
        ⟨(insts.map (encNoise v)).flatten ++ rest, p⟩ =
      .ok (insts, ⟨rest, p + ((insts.map (encNoise v)).flatten).length⟩) := by
  induction insts generalizing start p with
  | nil => simp [parseNoiseListN]
  | cons i t ih =>
    simp only [List.all_cons, Bool.and_eq_true] at h
    simp only [List.map_cons, List.flatten_cons, List.length_cons,
      List.append_assoc]
    rw [parseNoiseListN]
    rw [parse_noise_instrument_enc v start i _ p hv h.1]
    rw [ebind_ok]
    simp only []
    rw [ih _ _ h.2]
    rw [ebind_ok]
    simp only []
    simp only [epure_def, Except.ok.injEq, Prod.mk.injEq, ByteStream.mk.injEq,
      List.length_append, true_and, and_true]
    omega

theorem parseNibblesN_id (ctx : String) (w rest : List Nat) (p : Nat) :
    parseNibblesN ctx w.length ⟨w ++ rest, p⟩ =
      .ok (w, ⟨rest, p + w.length⟩) := by
  induction w generalizing p with
  | nil => simp [parseNibblesN]
  | cons b t ih =>
    simp only [List.length_cons, List.cons_append]
    rw [parseNibblesN]
    rw [read_u8_cons]
    rw [ebind_ok]
    simp only []
    rw [ih]
    rw [ebind_ok]
    simp only []
    rw [show p + 1 + t.length = p + (t.length + 1) by omega]
    rfl

theorem parseNibblesN_32 (ctx : String) (w rest : List Nat) (p : Nat)
    (hl : w.length = 32) :
    parseNibblesN ctx 32 ⟨w ++ rest, p⟩ = .ok (w, ⟨rest, p + 32⟩) := by
  rw [← hl]
  exact parseNibblesN_id ctx w rest p

theorem parseWavesN_enc (waves : List (List Nat)) (rest : List Nat) (p : Nat)
    (h : waves.all (fun w => w.length = 32) = true) :
    parseWavesN waves.length ⟨waves.flatten ++ rest, p⟩ =
      .ok (waves, ⟨rest, p + 32 * waves.length⟩) := by
  induction waves generalizing p with
  | nil => simp [parseWavesN]
  | cons w t ih =>
    simp only [List.all_cons, Bool.and_eq_true, decide_eq_true_eq] at h
    simp only [List.flatten_cons, List.length_cons, List.append_assoc]
    rw [parseWavesN]
    rw [parseNibblesN_32 _ _ _ _ h.1]
    rw [ebind_ok]
    simp only []
    rw [ih _ h.2]
    rw [ebind_ok]
    simp only []
    simp only [epure_def, Except.ok.injEq, Prod.mk.injEq, ByteStream.mk.injEq,
      true_and, and_true]
    omega

theorem parse_wavetables_enc (v : Nat) (hv : v = 5 ∨ v = 6)
    (waves : List (List Nat)) (rest : List Nat) (p : Nat)
    (hn : waves.length = 16)
    (h : waves.all (fun w => w.length = 32) = true) :
    parse_wavetables v ⟨waves.flatten ++ rest, p⟩ =
      .ok (waves, ⟨rest, p + 512⟩) := by
  have hv3 : ¬ v < 3 := by rcases hv with rfl | rfl <;> norm_num
  rw [parse_wavetables]
  rw [show (16 : Nat) = waves.length from hn.symm]
  rw [parseWavesN_enc waves rest p h]
  rw [ebind_ok]
  simp only []
  rw [if_neg hv3]
  rw [hn]
  rfl

theorem parseOrderPairsN_enc (ctx : String) (ch : List Nat)
    (rest : List Nat) (p : Nat) (h : ch.all u32ok = true) :
    parseOrderPairsN ctx ch.length
        ⟨(ch.map (fun i => write_u32 i ++ write_u32 0)).flatten ++ rest, p⟩ =
      .ok (ch, ⟨rest, p + 8 * ch.length⟩) := by
  induction ch generalizing p with
  | nil => simp [parseOrderPairsN]
  | cons a t ih =>
    simp only [List.all_cons, Bool.and_eq_true, u32ok, decide_eq_true_eq] at h
    simp only [List.map_cons, List.flatten_cons, List.length_cons,
      List.append_assoc]
    rw [parseOrderPairsN]
    rw [read_u32_write _ _ _ _ h.1]
    rw [ebind_ok]
    simp only []
    rw [read_u32_write _ _ _ _ (by norm_num)]
    rw [ebind_ok]
    simp only []
    rw [ih _ h.2]
    rw [ebind_ok]
    simp only []
    simp only [epure_def, Except.ok.injEq, Prod.mk.injEq, ByteStream.mk.injEq,
      true_and, and_true]
    omega

theorem parseOrderChannel_enc (ctx : String) (ch : List Nat)
    (rest : List Nat) (p : Nat) (h : validChannel ch = true) :
    parseOrderChannel ctx ⟨encOrderChannel ch ++ rest, p⟩ =
      .ok (ch, ⟨rest, p + 4 + 8 * ch.length⟩) := by
  simp only [validChannel, Bool.and_eq_true, decide_eq_true_eq] at h
  rw [parseOrderChannel, encOrderChannel, List.append_assoc]
  rw [read_u32_write _ _ _ _ h.1]
  rw [ebind_ok]
  simp only [Nat.add_sub_cancel]
  rw [parseOrderPairsN_enc _ _ _ _ h.2]

theorem parse_orders_enc (o : Orders) (rest : List Nat) (p : Nat)
    (h1 : validChannel o.duty1 = true) (h2 : validChannel o.duty2 = true)
    (h3 : validChannel o.wave = true) (h4 : validChannel o.noise = true) :
    parse_orders ⟨encOrderChannel o.duty1 ++ (encOrderChannel o.duty2 ++
        (encOrderChannel o.wave ++ (encOrderChannel o.noise ++ rest))), p⟩ =
      .ok (o, ⟨rest, p + 16 + 8 * (o.duty1.length + o.duty2.length +
        o.wave.length + o.noise.length)⟩) := by
  obtain ⟨d1, d2, wv, ns⟩ := o
  simp only at h1 h2 h3 h4 ⊢
  rw [parse_orders]
  simp only [List.append_assoc]
  rw [parseOrderChannel_enc _ _ _ _ h1]
  rw [ebind_ok]
  simp only []
  rw [parseOrderChannel_enc _ _ _ _ h2]
  rw [ebind_ok]
  simp only []
  rw [parseOrderChannel_enc _ _ _ _ h3]
  rw [ebind_ok]
  simp only []
  rw [parseOrderChannel_enc _ _ _ _ h4]
  rw [ebind_ok]
  simp only []
  simp only [epure_def, Except.ok.injEq, Prod.mk.injEq, ByteStream.mk.injEq,
    true_and, and_true]
  omega

theorem parseRoutinesN_enc (rs : List (List Nat)) (rest : List Nat) (p : Nat)
    (h : rs.all validRoutine = true) :
    parseRoutinesN rs.length
        ⟨(rs.map (fun r => write_string (utf8Encode r))).flatten ++ rest, p⟩ =
      .ok (rs, ⟨rest,
        p + ((rs.map (fun r => write_string (utf8Encode r))).flatten).length⟩) := by
  induction rs generalizing p with
  | nil => simp [parseRoutinesN]
  | cons r t ih =>
    simp only [List.all_cons, Bool.and_eq_true] at h
    simp only [List.map_cons, List.flatten_cons, List.length_cons,
      List.append_assoc]
    rw [parseRoutinesN]
    rw [read_string_write _ _ _ _ h.1]
    rw [ebind_ok]
    simp only []
    rw [ih _ h.2]
    rw [ebind_ok]
    simp only []
    simp only [epure_def, Except.ok.injEq, Prod.mk.injEq, ByteStream.mk.injEq,
      List.length_append, write_string, write_u32_length, true_and, and_true]
    omega

theorem parse_routines_enc (rs : List (List Nat)) (rest : List Nat) (p : Nat)
    (hn : rs.length = 16) (h : rs.all validRoutine = true) :
    parse_routines
        ⟨(rs.map (fun r => write_string (utf8Encode r))).flatten ++ rest, p⟩ =
      .ok (rs, ⟨rest,
        p + ((rs.map (fun r => write_string (utf8Encode r))).flatten).length⟩) := by
  rw [parse_routines]
  rw [show (16 : Nat) = rs.length from hn.symm]
  exact parseRoutinesN_enc rs rest p h

theorem parsePatternRowsN_enc6 (ctx : String) (rows : List PatternRow)
    (rest : List Nat) (p : Nat) (h : rows.all validPatternRow = true) :
    parsePatternRowsN 6 ctx rows.length
        ⟨(rows.map (encPatternRow 6)).flatten ++ rest, p⟩ =
      .ok (rows, ⟨rest, p + 17 * rows.length⟩) := by
  induction rows generalizing p with
  | nil => simp [parsePatternRowsN]
  | cons r t ih =>
    simp only [List.all_cons, Bool.and_eq_true] at h
    obtain ⟨hr, ht⟩ := h
    obtain ⟨note, iv, ec, ep⟩ := r
    simp only [validPatternRow, u32ok, u8ok, Bool.and_eq_true,
      decide_eq_true_eq] at hr
    obtain ⟨⟨⟨h1, h2⟩, h3⟩, h4⟩ := hr
    simp only [List.map_cons, List.flatten_cons, List.length_cons]
    rw [parsePatternRowsN]
    simp only [encPatternRow, List.append_assoc,
      if_pos (show (6 : Nat) ≤ 6 by norm_num), ebind_ok, epure_def,
      read_u32_write _ _ _ _ h1, read_u32_write _ _ _ _ h2,
      read_u32_write _ _ _ _ (show (0 : Nat) < 4294967296 by norm_num),
      read_u32_write _ _ _ _ h3, read_u8_write _ _ _ _ h4]
    rw [ih _ ht]
    simp only [ebind_ok, epure_def, Except.ok.injEq, Prod.mk.injEq,
      ByteStream.mk.injEq, true_and, and_true]
    omega

theorem parsePatternRowsN_enc5 (ctx : String) (rows : List PatternRow)
    (rest : List Nat) (p : Nat) (h : rows.all validPatternRow = true) :
    parsePatternRowsN 5 ctx rows.length
        ⟨(rows.map (encPatternRow 5)).flatten ++ rest, p⟩ =
      .ok (rows, ⟨rest, p + 13 * rows.length⟩) := by
  induction rows generalizing p with
  | nil => simp [parsePatternRowsN]
  | cons r t ih =>
    simp only [List.all_cons, Bool.and_eq_true] at h
    obtain ⟨hr, ht⟩ := h
    obtain ⟨note, iv, ec, ep⟩ := r
    simp only [validPatternRow, u32ok, u8ok, Bool.and_eq_true,
      decide_eq_true_eq] at hr
    obtain ⟨⟨⟨h1, h2⟩, h3⟩, h4⟩ := hr
    simp only [List.map_cons, List.flatten_cons, List.length_cons]
    rw [parsePatternRowsN]
    simp only [encPatternRow, List.append_assoc,
      if_neg (show ¬ (6 : Nat) ≤ 5 by norm_num), List.nil_append,
      ebind_ok, epure_def,
      read_u32_write _ _ _ _ h1, read_u32_write _ _ _ _ h2,
      read_u32_write _ _ _ _ h3, read_u8_write _ _ _ _ h4]
    rw [ih _ ht]
    simp only [ebind_ok, epure_def, Except.ok.injEq, Prod.mk.injEq,
      ByteStream.mk.injEq, true_and, and_true]
    omega

theorem parsePatternsN_enc6 (pats : List Pattern) (rest : List Nat) (p : Nat)
    (h : pats.all validPattern = true) :
    parsePatternsN 6 pats.length
        ⟨(pats.map (encPattern 6)).flatten ++ rest, p⟩ =
      .ok (pats, ⟨rest, p + 1092 * pats.length⟩) := by
  induction pats generalizing p with
  | nil => simp [parsePatternsN]
  | cons pt t ih =>
    simp only [List.all_cons, Bool.and_eq_true] at h
    obtain ⟨hp, ht⟩ := h
    simp only [validPattern, u32ok, Bool.and_eq_true, decide_eq_true_eq] at hp
    obtain ⟨⟨hidx, hlen⟩, hall⟩ := hp
    obtain ⟨idx, prows⟩ := pt
    simp only at hidx hlen hall
    simp only [List.map_cons, List.flatten_cons, List.length_cons]
    rw [parsePatternsN]
    simp only [encPattern, List.append_assoc, ebind_ok, epure_def,
      read_u32_write _ _ _ _ hidx]
    rw [show (64 : Nat) = prows.length from hlen.symm]
    rw [parsePatternRowsN_enc6 _ _ _ _ hall]
    rw [ebind_ok]
    simp only []
    rw [ih _ ht]
    rw [ebind_ok]
    simp only []
    simp only [epure_def, Except.ok.injEq, Prod.mk.injEq, ByteStream.mk.injEq,
      true_and, and_true]
    omega

theorem parsePatternsN_enc5 (pats : List Pattern) (rest : List Nat) (p : Nat)
    (h : pats.all validPattern = true) :
    parsePatternsN 5 pats.length
        ⟨(pats.map (encPattern 5)).flatten ++ rest, p⟩ =
      .ok (pats, ⟨rest, p + 836 * pats.length⟩) := by
  induction pats generalizing p with
  | nil => simp [parsePatternsN]
  | cons pt t ih =>
    simp only [List.all_cons, Bool.and_eq_true] at h
    obtain ⟨hp, ht⟩ := h
    simp only [validPattern, u32ok, Bool.and_eq_true, decide_eq_true_eq] at hp
    obtain ⟨⟨hidx, hlen⟩, hall⟩ := hp
    obtain ⟨idx, prows⟩ := pt
    simp only at hidx hlen hall
    simp only [List.map_cons, List.flatten_cons, List.length_cons]
    rw [parsePatternsN]
    simp only [encPattern, List.append_assoc, ebind_ok, epure_def,
      read_u32_write _ _ _ _ hidx]
    rw [show (64 : Nat) = prows.length from hlen.symm]
    rw [parsePatternRowsN_enc5 _ _ _ _ hall]
    rw [ebind_ok]
    simp only []
    rw [ih _ ht]
    rw [ebind_ok]
    simp only []
    simp only [epure_def, Except.ok.injEq, Prod.mk.injEq, ByteStream.mk.injEq,
      true_and, and_true]
    omega

theorem parse_patterns_enc6 (tpr : Nat) (te : Bool) (td : Nat)
    (pats : List Pattern) (rest : List Nat) (p : Nat)
    (htpr : tpr < 4294967296) (htd : td < 4294967296)
    (hcnt : pats.length < 4294967296) (h : pats.all validPattern = true) :
    parse_patterns 6 ⟨write_u32 tpr ++ (write_bool te ++ (write_u32 td ++
        (write_u32 pats.length ++
          ((pats.map (encPattern 6)).flatten ++ rest)))), p⟩ =
      .ok ((tpr, some te, some td, pats),
        ⟨rest, p + 13 + 1092 * pats.length⟩) := by
  rw [parse_patterns]
  simp only [List.append_assoc, ebind_ok, epure_def,
    if_pos (show (6 : Nat) ≤ 6 by norm_num),
    read_u32_write _ _ _ _ htpr, read_bool_write,
    read_u32_write _ _ _ _ htd, read_u32_write _ _ _ _ hcnt]
  rw [parsePatternsN_enc6 _ _ _ h]
  simp only [ebind_ok, epure_def, Except.ok.injEq, Prod.mk.injEq,
    ByteStream.mk.injEq, true_and, and_true]
  try omega

theorem parse_patterns_enc5 (tpr : Nat) (pats : List Pattern)
    (rest : List Nat) (p : Nat) (htpr : tpr < 4294967296)
    (hcnt : pats.length < 4294967296) (h : pats.all validPattern = true) :
    parse_patterns 5 ⟨write_u32 tpr ++ (write_u32 pats.length ++
        ((pats.map (encPattern 5)).flatten ++ rest)), p⟩ =
      .ok ((tpr, none, none, pats), ⟨rest, p + 8 + 836 * pats.length⟩) := by
  rw [parse_patterns]
  simp only [List.append_assoc, ebind_ok, epure_def,
    if_neg (show ¬ (6 : Nat) ≤ 5 by norm_num),
    read_u32_write _ _ _ _ htpr, read_u32_write _ _ _ _ hcnt]
  rw [parsePatternsN_enc5 _ _ _ h]
  simp only [ebind_ok, epure_def, Except.ok.injEq, Prod.mk.injEq,
    ByteStream.mk.injEq, true_and, and_true]
  try omega

/-! ## Encoded-section length helpers -/

theorem flatten_map_length {α : Type} (f : α → List Nat) (k : Nat)
    (l : List α) (h : ∀ x ∈ l, (f x).length = k) :
    ((l.map f).flatten).length = k * l.length := by
  induction l with
  | nil => simp
  | cons a t ih =>
    simp only [List.map_cons, List.flatten_cons, List.length_append,
      List.length_cons]
    rw [h a (List.mem_cons_self a t), ih (fun x hx => h x (List.mem_cons_of_mem a hx))]
    rw [Nat.mul_succ]
    omega

theorem flatten_const_length (k : Nat) (ws : List (List Nat))
    (h : ws.all (fun w => w.length = k) = true) :
    ws.flatten.length = k * ws.length := by
  induction ws with
  | nil => simp
  | cons w t ih =>
    simp only [List.all_cons, Bool.and_eq_true, decide_eq_true_eq] at h
    simp only [List.flatten_cons, List.length_append, List.length_cons]
    rw [h.1, ih h.2]
    rw [Nat.mul_succ]
    omega

theorem encPatternRow_length6 (r : PatternRow) :
    (encPatternRow 6 r).length = 17 := by
  simp [encPatternRow, write_u32, write_u8]

theorem encPatternRow_length5 (r : PatternRow) :
    (encPatternRow 5 r).length = 13 := by
  simp [encPatternRow, write_u32, write_u8]

theorem encPattern_length6 (pt : Pattern) (h : validPattern pt = true) :
    (encPattern 6 pt).length = 1092 := by
  simp only [validPattern, u32ok, Bool.and_eq_true, decide_eq_true_eq] at h
  simp only [encPattern, List.length_append, write_u32_length,
    flatten_map_length (encPatternRow 6) 17 pt.rows
      (fun r _ => encPatternRow_length6 r), h.1.2]

theorem encPattern_length5 (pt : Pattern) (h : validPattern pt = true) :
    (encPattern 5 pt).length = 836 := by
  simp only [validPattern, u32ok, Bool.and_eq_true, decide_eq_true_eq] at h
  simp only [encPattern, List.length_append, write_u32_length,
    flatten_map_length (encPatternRow 5) 13 pt.rows
      (fun r _ => encPatternRow_length5 r), h.1.2]

theorem encPatterns_flatten_length6 (pats : List Pattern)
    (h : pats.all validPattern = true) :
    ((pats.map (encPattern 6)).flatten).length = 1092 * pats.length :=
  flatten_map_length (encPattern 6) 1092 pats
    (fun pt hpt => encPattern_length6 pt (List.all_eq_true.mp h pt hpt))

theorem encPatterns_flatten_length5 (pats : List Pattern)
    (h : pats.all validPattern = true) :
    ((pats.map (encPattern 5)).flatten).length = 836 * pats.length :=
  flatten_map_length (encPattern 5) 836 pats
    (fun pt hpt => encPattern_length5 pt (List.all_eq_true.mp h pt hpt))

theorem encOrderChannel_length (ch : List Nat) :
    (encOrderChannel ch).length = 4 + 8 * ch.length := by
  simp only [encOrderChannel, List.length_append, write_u32_length,
    flatten_map_length (fun i => write_u32 i ++ write_u32 0) 8 ch
      (fun i _ => by simp [write_u32])]

theorem parseDutyListN_15 (v : Nat) (hv : v = 5 ∨ v = 6)
    (insts : List Instrument) (start : Nat) (rest : List Nat) (p : Nat)
    (hn : insts.length = 15) (h : insts.all (validDuty v) = true) :
    parseDutyListN v start 15 ⟨(insts.map (encDuty v)).flatten ++ rest, p⟩ =
      .ok (insts, ⟨rest, p + ((insts.map (encDuty v)).flatten).length⟩) := by
  rw [← hn]
  exact parseDutyListN_enc v hv insts start rest p h

theorem parseWaveListN_15 (v : Nat) (hv : v = 5 ∨ v = 6)
    (insts : List Instrument) (start : Nat) (rest : List Nat) (p : Nat)
    (hn : insts.length = 15) (h : insts.all (validWave v) = true) :
    parseWaveListN v start 15 ⟨(insts.map (encWave v)).flatten ++ rest, p⟩ =
      .ok (insts, ⟨rest, p + ((insts.map (encWave v)).flatten).length⟩) := by
  rw [← hn]
  exact parseWaveListN_enc v hv insts start rest p h

theorem parseNoiseListN_15 (v : Nat) (hv : v = 5 ∨ v = 6)
    (insts : List Instrument) (start : Nat) (rest : List Nat) (p : Nat)
    (hn : insts.length = 15) (h : insts.all (validNoise v) = true) :
    parseNoiseListN v start 15 ⟨(insts.map (encNoise v)).flatten ++ rest, p⟩ =
      .ok (insts, ⟨rest, p + ((insts.map (encNoise v)).flatten).length⟩) := by
  rw [← hn]
  exact parseNoiseListN_enc v hv insts start rest p h

set_option maxHeartbeats 4000000 in
/-- The whole-file round trip: decoding an encoded valid song consumes
exactly the encoded bytes, returns the song unchanged, and leaves any
trailing bytes unread at the position right after the 16th routine. -/
theorem parse_uge_enc (s : UgeSong) (extra : List Nat)
    (h : songValid s = true) :
    parse_uge ⟨encodeSong s ++ extra, 0⟩ =
      .ok (s, ⟨extra, (encodeSong s).length⟩) := by
  obtain ⟨ver, nm, art, cmt, duty, wave, noise, wt, tpr, tte, ttd, pats,
    ords, routs⟩ := s
  simp only [songValid, u32ok, Bool.and_eq_true, Bool.or_eq_true,
    decide_eq_true_eq] at h
  obtain ⟨⟨⟨⟨⟨⟨⟨⟨⟨⟨⟨⟨⟨⟨⟨⟨⟨⟨⟨⟨⟨hver, hnm⟩, hart⟩, hcmt⟩, hdl⟩, hda⟩, hwl⟩,
    hwa⟩, hnl⟩, hna⟩, hwtl⟩, hwta⟩, htpr⟩, htim⟩, hpl⟩, hpa⟩, hc1⟩, hc2⟩,
    hc3⟩, hc4⟩, hrl⟩, hra⟩ := h
  have hwta2 : (wt.all fun w => w.length = 32) = true := by
    rw [List.all_eq_true] at hwta ⊢
    intro w hw
    have h2 := hwta w hw
    simp only [Bool.and_eq_true] at h2
    exact h2.1
  have hwt512 : wt.flatten.length = 512 := by
    rw [flatten_const_length 32 wt hwta2, hwtl]
  rcases hver with rfl | rfl
  · simp only [Option.isNone_iff_eq_none,
      if_neg (show ¬ (6 : Nat) ≤ 5 by norm_num), Bool.and_eq_true] at htim
    obtain ⟨htte, httd⟩ := htim
    subst htte httd
    have hpatlen := encPatterns_flatten_length5 pats hpa
    rw [parse_uge]
    simp only [encodeSong, List.append_assoc,
      if_neg (show ¬ (5 : Nat) < 3 by norm_num),
      if_neg (show ¬ (6 : Nat) ≤ 5 by norm_num),
      List.nil_append]
    rw [read_u32_write _ _ _ _ (by norm_num)]
    rw [ebind_ok]
    simp only []
    rw [if_neg (by norm_num : ¬((5 : Nat) < 5 ∨ 6 < 5))]
    rw [read_shortstring_write _ _ _ _ hnm]
    rw [ebind_ok]
    simp only []
    rw [read_shortstring_write _ _ _ _ hart]
    rw [ebind_ok]
    simp only []
    rw [read_shortstring_write _ _ _ _ hcmt]
    rw [ebind_ok]
    simp only []
    rw [parseDutyListN_15 5 (Or.inl rfl) duty 0 _ _ hdl hda]
    rw [ebind_ok]
    simp only []
    rw [parseWaveListN_15 5 (Or.inl rfl) wave 0 _ _ hwl hwa]
    rw [ebind_ok]
    simp only []
    rw [parseNoiseListN_15 5 (Or.inl rfl) noise 0 _ _ hnl hna]
    rw [ebind_ok]
    simp only []
    rw [parse_wavetables_enc 5 (Or.inl rfl) wt _ _ hwtl hwta2]
    rw [ebind_ok]
    simp only []
    rw [parse_patterns_enc5 _ _ _ _ htpr hpl hpa]
    rw [ebind_ok]
    simp only []
    rw [parse_orders_enc ⟨ords.duty1, ords.duty2, ords.wave, ords.noise⟩
      _ _ hc1 hc2 hc3 hc4]
    rw [ebind_ok]
    simp only []
    rw [parse_routines_enc routs _ _ hrl hra]
    rw [ebind_ok]
    simp only []
    simp only [epure_def, Except.ok.injEq, Prod.mk.injEq, ByteStream.mk.injEq,
      List.length_append, write_u32_length, write_shortstring_length,
      write_bool_length, encOrderChannel_length, hwt512, hpatlen,
      true_and, and_true]
    omega
  · simp only [if_pos (show (6 : Nat) ≤ 6 by norm_num)] at htim
    obtain ⟨tteb, htteb⟩ : ∃ b, tte = some b := by
      cases tte with
      | none => simp at htim
      | some b => exact ⟨b, rfl⟩
    subst htteb
    obtain ⟨ttdv, httdv⟩ : ∃ d, ttd = some d := by
      cases ttd with
      | none => simp at htim
      | some d => exact ⟨d, rfl⟩
    subst httdv
    have httd : ttdv < 4294967296 := by simpa using htim
    have hpatlen := encPatterns_flatten_length6 pats hpa
    rw [parse_uge]
    simp only [encodeSong, List.append_assoc, Option.getD_some,
      if_neg (show ¬ (6 : Nat) < 3 by norm_num),
      if_pos (show (6 : Nat) ≤ 6 by norm_num),
      List.nil_append]
    rw [read_u32_write _ _ _ _ (by norm_num)]
    rw [ebind_ok]
    simp only []
    rw [if_neg (by norm_num : ¬((6 : Nat) < 5 ∨ 6 < 6))]
    rw [read_shortstring_write _ _ _ _ hnm]
    rw [ebind_ok]
    simp only []
    rw [read_shortstring_write _ _ _ _ hart]
    rw [ebind_ok]
    simp only []
    rw [read_shortstring_write _ _ _ _ hcmt]
    rw [ebind_ok]
    simp only []
    rw [parseDutyListN_15 6 (Or.inr rfl) duty 0 _ _ hdl hda]
    rw [ebind_ok]
    simp only []
    rw [parseWaveListN_15 6 (Or.inr rfl) wave 0 _ _ hwl hwa]
    rw [ebind_ok]
    simp only []
    rw [parseNoiseListN_15 6 (Or.inr rfl) noise 0 _ _ hnl hna]
    rw [ebind_ok]
    simp only []
    rw [parse_wavetables_enc 6 (Or.inr rfl) wt _ _ hwtl hwta2]
    rw [ebind_ok]
    simp only []
    rw [parse_patterns_enc6 _ _ _ _ _ _ htpr httd hpl hpa]
    rw [ebind_ok]
    simp only []
    rw [parse_orders_enc ⟨ords.duty1, ords.duty2, ords.wave, ords.noise⟩
      _ _ hc1 hc2 hc3 hc4]
    rw [ebind_ok]
    simp only []
    rw [parse_routines_enc routs _ _ hrl hra]
    rw [ebind_ok]
    simp only []
    simp only [epure_def, Except.ok.injEq, Prod.mk.injEq, ByteStream.mk.injEq,
      List.length_append, write_u32_length, write_shortstring_length,
      write_bool_length, encOrderChannel_length, hwt512, hpatlen,
      true_and, and_true]
    omega

/-! ## Reads from arbitrary byte streams -/

theorem read_u32_append (ctx : String) (bs rest : List Nat) (p : Nat)
    (h : bs.length = 4) :
    read_u32 ctx ⟨bs ++ rest, p⟩ = .ok (leU32 bs, ⟨rest, p + 4⟩) := by
  rw [read_u32, read_exact_append 4 ctx bs rest p h]
  rfl

theorem read_u8_append (ctx : String) (bs rest : List Nat) (p : Nat)
    (h : bs.length = 1) :
    read_u8 ctx ⟨bs ++ rest, p⟩ = .ok (bs.headD 0, ⟨rest, p + 1⟩) := by
  rw [read_u8, read_exact_append 1 ctx bs rest p h]
  rfl

theorem read_bool_cons (ctx : String) (b : Nat) (rest : List Nat) (p : Nat) :
    read_bool_u8 ctx ⟨b :: rest, p⟩ = .ok (decide (b ≠ 0), ⟨rest, p + 1⟩) := by
  rw [read_bool_u8, read_u8_cons]
  rfl

theorem read_u32_any (ctx : String) (s : ByteStream) (h : 4 ≤ s.data.length) :
    read_u32 ctx s =
      .ok (leU32 (s.data.take 4), ⟨s.data.drop 4, s.pos + 4⟩) := by
  rw [read_u32, read_exact_ok 4 ctx s h]
  rfl

theorem read_u8_any (ctx : String) (s : ByteStream) (h : 1 ≤ s.data.length) :
    read_u8 ctx s =
      .ok ((s.data.take 1).headD 0, ⟨s.data.drop 1, s.pos + 1⟩) := by
  rw [read_u8, read_exact_ok 1 ctx s h]
  rfl

theorem read_shortstring_append (ctx : String) (bs rest : List Nat) (p : Nat)
    (h : bs.length = 256) :
    ∃ v, read_shortstring ctx ⟨bs ++ rest, p⟩ = .ok (v, ⟨rest, p + 256⟩) := by
  cases bs with
  | nil => simp at h
  | cons L payload =>
    have hp : payload.length = 255 := by simpa using h
    refine ⟨decodeUtf8Replace (payload.take L), ?_⟩
    rw [read_shortstring]
    rw [show (L :: payload) ++ rest = L :: (payload ++ rest) from rfl]
    rw [read_u8_cons]
    rw [ebind_ok]
    simp only []
    rw [read_exact_append 255 _ payload rest _ hp]
    rw [ebind_ok]
    simp only []
    rfl

theorem parseRowsN_any (ctx : String) (n : Nat) (s : ByteStream)
    (h : 17 * n ≤ s.data.length) :
    ∃ rows, parseRowsN ctx n s =
      .ok (rows, ⟨s.data.drop (17 * n), s.pos + 17 * n⟩) ∧
      rows.length = n := by
  induction n generalizing s with
  | zero =>
    refine ⟨[], ?_, rfl⟩
    simp [parseRowsN]
  | succ m ih =>
    have h17 : 17 ≤ s.data.length := by omega
    rw [parseRowsN]
    rw [read_u32_any _ _ (by omega)]
    rw [ebind_ok]
    simp only []
    rw [read_u32_any _ _ (by simp; omega)]
    rw [ebind_ok]
    simp only []
    rw [read_u32_any _ _ (by simp; omega)]
    rw [ebind_ok]
    simp only []
    rw [read_u32_any _ _ (by simp; omega)]
    rw [ebind_ok]
    simp only []
    rw [read_u8_any _ _ (by simp; omega)]
    rw [ebind_ok]
    simp only []
    simp only [List.drop_drop]
    obtain ⟨rows, hrows, hlen⟩ := ih ⟨s.data.drop 17, s.pos + 4 + 4 + 4 + 4 + 1⟩
      (by simp; omega)
    simp only [show (1 : Nat) + (4 + (4 + (4 + 4))) = 17 by norm_num] at hrows ⊢
    rw [hrows]
    rw [ebind_ok]
    simp only []
    refine ⟨⟨leU32 (s.data.take 4), leU32 ((s.data.drop (4 + 4)).take 4),
      leU32 ((s.data.drop (4 + 4 + 4)).take 4),
      ((s.data.drop (4 + 4 + 4 + 4)).take 1).headD 0⟩ :: rows, ?_, by
        simp [hlen]⟩
    rw [show 17 * (m + 1) = 17 + 17 * m by omega]
    simp only [epure_def, Except.ok.injEq, Prod.mk.injEq, ByteStream.mk.injEq,
      List.drop_drop, true_and, and_true]
    omega

/-! ## Further stream lemmas and per-claim theorems -/

theorem read_bool_append (ctx : String) (bs rest : List Nat) (p : Nat)
    (h : bs.length = 1) :
    read_bool_u8 ctx ⟨bs ++ rest, p⟩ =
      .ok (decide (bs.headD 0 ≠ 0), ⟨rest, p + 1⟩) := by
  rw [read_bool_u8, read_u8_append ctx bs rest p h]
  rfl

theorem parse_instrument_rows_any6 (ctx : String) (s : ByteStream)
    (h : 1088 ≤ s.data.length) :
    ∃ rows, parse_instrument_rows 6 ctx s =
      .ok (rows, ⟨s.data.drop 1088, s.pos + 1088⟩) ∧ rows.length = 64 := by
  obtain ⟨rows, hrows, hlen⟩ := parseRowsN_any ctx 64 s (by omega)
  refine ⟨rows, ?_, hlen⟩
  simp only [show (17 * 64 : Nat) = 1088 from by norm_num] at hrows
  rw [parse_instrument_rows, hrows, ebind_ok]
  simp only []
  rw [if_neg (show ¬ (4 ≤ 6 ∧ 6 < 6) by omega)]
  rfl

theorem parse_instrument_rows_any5 (ctx : String) (s : ByteStream)
    (h : 1094 ≤ s.data.length) :
    ∃ rows, parse_instrument_rows 5 ctx s =
      .ok (rows, ⟨s.data.drop 1094, s.pos + 1094⟩) ∧ rows.length = 64 := by
  obtain ⟨rows, hrows, hlen⟩ := parseRowsN_any ctx 64 s (by omega)
  refine ⟨rows, ?_, hlen⟩
  simp only [show (17 * 64 : Nat) = 1088 from by norm_num] at hrows
  rw [parse_instrument_rows, hrows, ebind_ok]
  simp only []
  rw [if_pos (show 4 ≤ 5 ∧ 5 < 6 by omega)]
  rw [skipI8N_drop ctx 6 ⟨s.data.drop 1088, s.pos + 1088⟩ (by simp; omega)]
  rw [ebind_ok]
  simp only [epure_def, Except.ok.injEq, Prod.mk.injEq, ByteStream.mk.injEq,
    List.drop_drop, true_and]

theorem parse_duty6_flag_zero (idx p : Nat)
    (nB lB leB ivB vsdB vscB fstB seB fssB dcB uaB ubB rest : List Nat)
    (hn : nB.length = 256) (h1 : lB.length = 4) (h2 : leB.length = 1)
    (h3 : ivB.length = 1) (h4 : vsdB.length = 4) (h5 : vscB.length = 1)
    (h6 : fstB.length = 4) (h7 : seB.length = 4) (h8 : fssB.length = 4)
    (h9 : dcB.length = 1) (h10 : uaB.length = 4) (h11 : ubB.length = 4) :
    ∃ inst,
      parse_duty_instrument 6 idx
          ⟨write_u32 0 ++ (nB ++ (lB ++ (leB ++ (ivB ++ (vsdB ++ (vscB ++
            (fstB ++ (seB ++ (fssB ++ (dcB ++ (uaB ++ (ubB ++
            (0 :: rest))))))))))))), p⟩ =
        .ok ((inst, []), ⟨rest, p + 293⟩) ∧
      inst.subpattern_enabled = some false ∧ inst.rows = none := by
  obtain ⟨nv, hnv⟩ := read_shortstring_append ("duty[" ++ toString idx ++ "]" ++ ".name")
    nB (lB ++ (leB ++ (ivB ++ (vsdB ++ (vscB ++ (fstB ++ (seB ++ (fssB ++
      (dcB ++ (uaB ++ (ubB ++ (0 :: rest)))))))))))) (p + 4) hn
  refine ⟨⟨0, nv, leU32 lB, decide (leB.headD 0 ≠ 0), some (ivB.headD 0),
    some (leU32 vsdB), some (vscB.headD 0), some (leU32 fstB),
    some (leU32 seB), some (leU32 fssB), some (dcB.headD 0),
    none, none, none, some (decide ((0 : Nat) ≠ 0)), none⟩, ?_, rfl, rfl⟩
  rw [parse_duty_instrument]
  rw [resolveInstType_write 0 _ _ _ (by norm_num) (by simp; omega)]
  rw [ebind_ok]
  simp only []
  rw [parseDutyBody]
  rw [hnv]
  rw [ebind_ok]
  simp only []
  rw [read_u32_append _ lB _ _ h1, ebind_ok]
  simp only []
  rw [read_bool_append _ leB _ _ h2, ebind_ok]
  simp only []
  rw [read_u8_append _ ivB _ _ h3, ebind_ok]
  simp only []
  rw [read_u32_append _ vsdB _ _ h4, ebind_ok]
  simp only []
  rw [read_u8_append _ vscB _ _ h5, ebind_ok]
  simp only []
  rw [read_u32_append _ fstB _ _ h6, ebind_ok]
  simp only []
  rw [read_u32_append _ seB _ _ h7, ebind_ok]
  simp only []
  rw [read_u32_append _ fssB _ _ h8, ebind_ok]
  simp only []
  rw [read_u8_append _ dcB _ _ h9, ebind_ok]
  simp only []
  rw [read_u32_append _ uaB _ _ h10, ebind_ok]
  simp only []
  rw [read_u32_append _ ubB _ _ h11, ebind_ok]
  simp only []
  rw [if_neg (show ¬ (6 : Nat) < 6 by norm_num)]
  rw [read_bool_cons, ebind_ok]
  simp only []
  rw [if_neg (show ¬ (decide ((0 : Nat) ≠ 0)) = true by decide)]
  rw [show p + 4 + 256 + 4 + 1 + 1 + 4 + 1 + 4 + 4 + 4 + 1 + 4 + 4 + 1 =
    p + 293 from by omega]
  rfl

theorem parse_duty6_flag_set (idx p b : Nat) (hb : b ≠ 0)
    (nB lB leB ivB vsdB vscB fstB seB fssB dcB uaB ubB rest : List Nat)
    (hn : nB.length = 256) (h1 : lB.length = 4) (h2 : leB.length = 1)
    (h3 : ivB.length = 1) (h4 : vsdB.length = 4) (h5 : vscB.length = 1)
    (h6 : fstB.length = 4) (h7 : seB.length = 4) (h8 : fssB.length = 4)
    (h9 : dcB.length = 1) (h10 : uaB.length = 4) (h11 : ubB.length = 4)
    (hrest : 1088 ≤ rest.length) :
    ∃ inst rows,
      parse_duty_instrument 6 idx
          ⟨write_u32 0 ++ (nB ++ (lB ++ (leB ++ (ivB ++ (vsdB ++ (vscB ++
            (fstB ++ (seB ++ (fssB ++ (dcB ++ (uaB ++ (ubB ++
            (b :: rest))))))))))))), p⟩ =
        .ok ((inst, []), ⟨rest.drop 1088, p + 293 + 1088⟩) ∧
      inst.subpattern_enabled = some true ∧ inst.rows = some rows ∧
      rows.length = 64 := by
  obtain ⟨nv, hnv⟩ := read_shortstring_append ("duty[" ++ toString idx ++ "]" ++ ".name")
    nB (lB ++ (leB ++ (ivB ++ (vsdB ++ (vscB ++ (fstB ++ (seB ++ (fssB ++
      (dcB ++ (uaB ++ (ubB ++ (b :: rest)))))))))))) (p + 4) hn
  obtain ⟨rows, hrows, hlen⟩ := parse_instrument_rows_any6
    ("duty[" ++ toString idx ++ "]")
    ⟨rest, p + 4 + 256 + 4 + 1 + 1 + 4 + 1 + 4 + 4 + 4 + 1 + 4 + 4 + 1⟩
    (by simpa using hrest)
  refine ⟨⟨0, nv, leU32 lB, decide (leB.headD 0 ≠ 0), some (ivB.headD 0),
    some (leU32 vsdB), some (vscB.headD 0), some (leU32 fstB),
    some (leU32 seB), some (leU32 fssB), some (dcB.headD 0),
    none, none, none, some (decide (b ≠ 0)), some rows⟩, rows, ?_,
    by simp [hb], rfl, hlen⟩
  rw [parse_duty_instrument]
  rw [resolveInstType_write 0 _ _ _ (by norm_num) (by simp; omega)]
  rw [ebind_ok]
  simp only []
  rw [parseDutyBody]
  rw [hnv]
  rw [ebind_ok]
  simp only []
  rw [read_u32_append _ lB _ _ h1, ebind_ok]
  simp only []
  rw [read_bool_append _ leB _ _ h2, ebind_ok]
  simp only []
  rw [read_u8_append _ ivB _ _ h3, ebind_ok]
  simp only []
  rw [read_u32_append _ vsdB _ _ h4, ebind_ok]
  simp only []
  rw [read_u8_append _ vscB _ _ h5, ebind_ok]
  simp only []
  rw [read_u32_append _ fstB _ _ h6, ebind_ok]
  simp only []
  rw [read_u32_append _ seB _ _ h7, ebind_ok]
  simp only []
  rw [read_u32_append _ fssB _ _ h8, ebind_ok]
  simp only []
  rw [read_u8_append _ dcB _ _ h9, ebind_ok]
  simp only []
  rw [read_u32_append _ uaB _ _ h10, ebind_ok]
  simp only []
  rw [read_u32_append _ ubB _ _ h11, ebind_ok]
  simp only []
  rw [if_neg (show ¬ (6 : Nat) < 6 by norm_num)]
  rw [read_bool_cons, ebind_ok]
  simp only []
  rw [if_pos (show (decide (b ≠ 0)) = true from by simp [hb])]
  rw [hrows, ebind_ok]
  simp only []
  rw [show p + 4 + 256 + 4 + 1 + 1 + 4 + 1 + 4 + 4 + 4 + 1 + 4 + 4 + 1 + 1088 =
    p + 293 + 1088 from by omega]
  rfl

theorem ebind_err {α β : Type} (e : PErr) (f : α → Except PErr β) :
    (Except.error e >>= f) = .error e := rfl

theorem read_u32_cases (ctx : String) (s : ByteStream) :
    read_u32 ctx s = if 4 ≤ s.data.length
      then .ok (leU32 (s.data.take 4), ⟨s.data.drop 4, s.pos + 4⟩)
      else .error (.truncated s.pos 4 s.data.length ctx) := by
  by_cases h : 4 ≤ s.data.length
  · rw [read_u32_any ctx s h, if_pos h]
  · rw [if_neg h, read_u32, read_exact, if_neg h]
    rfl

theorem scanShift_ok (expected : Nat) (ctx : String) (t0 : Nat)
    (s : ByteStream) (ks : List Nat) (k : Nat)
    (h : scanShift expected ctx t0 s ks = .ok k) :
    k ∈ ks ∧ 4 ≤ (s.data.drop k).length ∧
      leU32 ((s.data.drop k).take 4) = expected := by
  induction ks with
  | nil => simp [scanShift] at h
  | cons a t ih =>
    rw [scanShift, read_u32_cases] at h
    by_cases ha : 4 ≤ (ByteStream.dropBytes s a).data.length
    · rw [if_pos ha] at h
      simp only [] at h
      by_cases he : leU32 ((ByteStream.dropBytes s a).data.take 4) = expected
      · rw [if_pos he] at h
        have hk : a = k := by
          simpa using h
        subst hk
        exact ⟨by simp, ha, he⟩
      · rw [if_neg he] at h
        obtain ⟨hm, hrest⟩ := ih h
        exact ⟨by simp [hm], hrest⟩
    · rw [if_neg ha] at h
      simp only [] at h
      exact absurd h (by simp)

theorem scanShift_err (expected : Nat) (ctx : String) (t0 : Nat)
    (s : ByteStream) (ks : List Nat) (e : PErr)
    (h : scanShift expected ctx t0 s ks = .error e) :
    e = .unexpectedTag s.pos t0 expected := by
  induction ks with
  | nil =>
    rw [scanShift] at h
    simpa using h.symm
  | cons a t ih =>
    rw [scanShift, read_u32_cases] at h
    by_cases ha : 4 ≤ (ByteStream.dropBytes s a).data.length
    · rw [if_pos ha] at h
      simp only [] at h
      by_cases he : leU32 ((ByteStream.dropBytes s a).data.take 4) = expected
      · rw [if_pos he] at h
        exact absurd h (by simp)
      · rw [if_neg he] at h
        exact ih h
    · rw [if_neg ha] at h
      simp only [] at h
      simpa using h.symm

theorem resolveInstType_pass (expected : Nat) (ctx : String) (s : ByteStream)
    (h8 : 8 ≤ s.data.length) (heq : leU32 (s.data.take 4) = expected) :
    resolveInstType expected ctx s =
      .ok ((leU32 (s.data.take 4), []), ⟨s.data.drop 4, s.pos + 4⟩) := by
  rw [resolveInstType, read_exact_ok 8 _ s h8, ebind_ok]
  simp only []
  rw [read_u32_any _ _ (by omega), ebind_ok]
  simp only []
  rw [if_pos heq]
  rfl

theorem resolveInstType_resync (expected : Nat) (ctx : String) (s : ByteStream)
    (k : Nat) (h8 : 8 ≤ s.data.length)
    (hne : leU32 (s.data.take 4) ≠ expected)
    (hk : scanShift expected ctx (leU32 (s.data.take 4)) s [1, 2, 3, 4] = .ok k) :
    resolveInstType expected ctx s =
      .ok ((expected, [ctx ++ ".resync"]), ByteStream.dropBytes s k) := by
  rw [resolveInstType, read_exact_ok 8 _ s h8, ebind_ok]
  simp only []
  rw [read_u32_any _ _ (by omega), ebind_ok]
  simp only []
  rw [if_neg hne, hk]
  rfl

theorem resolveInstType_fail (expected : Nat) (ctx : String) (s : ByteStream)
    (e : PErr) (h8 : 8 ≤ s.data.length)
    (hne : leU32 (s.data.take 4) ≠ expected)
    (hk : scanShift expected ctx (leU32 (s.data.take 4)) s [1, 2, 3, 4] =
      .error e) :
    resolveInstType expected ctx s = .error e := by
  rw [resolveInstType, read_exact_ok 8 _ s h8, ebind_ok]
  simp only []
  rw [read_u32_any _ _ (by omega), ebind_ok]
  simp only []
  rw [if_neg hne, hk]

theorem parse_duty_res_err (v idx : Nat) (s : ByteStream) (e : PErr)
    (h : resolveInstType 0 ("duty[" ++ toString idx ++ "]") s = .error e) :
    parse_duty_instrument v idx s = .error e := by
  rw [parse_duty_instrument, h]
  rfl

theorem parse_duty_res_ok (v idx t : Nat) (w : List String) (s s1 : ByteStream)
    (h : resolveInstType 0 ("duty[" ++ toString idx ++ "]") s = .ok ((t, w), s1)) :
    parse_duty_instrument v idx s =
      parseDutyBody v ("duty[" ++ toString idx ++ "]") t w s1 := by
  rw [parse_duty_instrument, h]
  rfl

theorem parse_noise_res_err (v idx : Nat) (s : ByteStream) (e : PErr)
    (h : resolveInstType 2 ("noise[" ++ toString idx ++ "]") s = .error e) :
    parse_noise_instrument v idx s = .error e := by
  rw [parse_noise_instrument, h]
  rfl

theorem parse_noise_res_ok (v idx t : Nat) (w : List String) (s s1 : ByteStream)
    (h : resolveInstType 2 ("noise[" ++ toString idx ++ "]") s = .ok ((t, w), s1)) :
    parse_noise_instrument v idx s =
      parseNoiseBody v ("noise[" ++ toString idx ++ "]") t w s1 := by
  rw [parse_noise_instrument, h]
  rfl

theorem parseOrderPairsN_fst (ctx : String) (pairs : List (Nat × Nat))
    (rest : List Nat) (p : Nat)
    (hlt : ∀ q ∈ pairs, q.1 < 4294967296) :
    parseOrderPairsN ctx pairs.length
        ⟨(pairs.map (fun q => write_u32 q.1 ++ write_u32 q.2)).flatten ++
          rest, p⟩ =
      .ok (pairs.map Prod.fst, ⟨rest, p + 8 * pairs.length⟩) := by
  induction pairs generalizing p with
  | nil => simp [parseOrderPairsN]
  | cons q t ih =>
    simp only [List.map_cons, List.flatten_cons, List.length_cons,
      List.append_assoc]
    rw [parseOrderPairsN]
    rw [read_u32_write _ _ _ _ (hlt q (by simp))]
    rw [ebind_ok]
    simp only []
    rw [read_u32_append _ (write_u32 q.2) _ _ (write_u32_length q.2)]
    rw [ebind_ok]
    simp only []
    rw [ih _ (fun r hr => hlt r (by simp [hr]))]
    rw [ebind_ok]
    simp only [epure_def, Except.ok.injEq, Prod.mk.injEq, ByteStream.mk.injEq,
      true_and, and_true]
    omega

theorem parseOrderChannel_word (ctx : String) (L p : Nat)
    (hL : L < 4294967296) (pairs : List (Nat × Nat)) (rest : List Nat)
    (hlen : pairs.length = L - 1)
    (hlt : ∀ q ∈ pairs, q.1 < 4294967296) :
    parseOrderChannel ctx
        ⟨write_u32 L ++ ((pairs.map (fun q => write_u32 q.1 ++
          write_u32 q.2)).flatten ++ rest), p⟩ =
      .ok (pairs.map Prod.fst, ⟨rest, p + 4 + 8 * (L - 1)⟩) := by
  rw [parseOrderChannel]
  rw [read_u32_write _ _ _ _ hL]
  rw [ebind_ok]
  simp only []
  rw [← hlen]
  rw [parseOrderPairsN_fst ctx pairs rest _ hlt]

theorem read_string_append_ok (ctx : String) (n : Nat) (payload rest : List Nat)
    (p : Nat) (hn : n < 4294967296) (hp : payload.length = n) :
    ∃ v, read_string ctx ⟨write_u32 n ++ (payload ++ rest), p⟩ =
      .ok (v, ⟨rest, p + 4 + n⟩) := by
  refine ⟨decodeUtf8Replace (dropTrailingSpaces payload), ?_⟩
  rw [read_string]
  rw [read_u32_write _ _ _ _ hn]
  rw [ebind_ok]
  simp only []
  rw [read_exact_append n _ payload rest _ hp]
  rw [ebind_ok]
  simp only []
  rfl

theorem read_shortstring_any (ctx : String) (s : ByteStream)
    (h : 256 ≤ s.data.length) :
    ∃ v, read_shortstring ctx s =
      .ok (v, ⟨s.data.drop 256, s.pos + 256⟩) := by
  obtain ⟨data, pos⟩ := s
  simp only at h ⊢
  obtain ⟨v, hv⟩ := read_shortstring_append ctx (data.take 256) (data.drop 256)
    pos (by simp; omega)
  rw [List.take_append_drop] at hv
  exact ⟨v, hv⟩

theorem read_shortstring_err_insufficient (ctx : String) (s : ByteStream)
    (e : PErr) (h : read_shortstring ctx s = .error e) :
    s.data.length < 256 := by
  by_contra hge
  push_neg at hge
  obtain ⟨v, hv⟩ := read_shortstring_any ctx s hge
  rw [hv] at h
  exact Except.noConfusion h

theorem read_string_any (ctx : String) (s : ByteStream)
    (h4 : 4 ≤ s.data.length)
    (hlen : 4 + leU32 (s.data.take 4) ≤ s.data.length) :
    ∃ v, read_string ctx s =
      .ok (v, ⟨s.data.drop (4 + leU32 (s.data.take 4)),
        s.pos + 4 + leU32 (s.data.take 4)⟩) := by
  rw [read_string]
  rw [read_u32_any _ _ h4]
  rw [ebind_ok]
  simp only []
  rw [read_exact_ok _ _ ⟨s.data.drop 4, s.pos + 4⟩ (by simp; omega)]
  rw [ebind_ok]
  simp only []
  refine ⟨decodeUtf8Replace (dropTrailingSpaces
    ((s.data.drop 4).take (leU32 (s.data.take 4)))), ?_⟩
  simp only [epure_def, Except.ok.injEq, Prod.mk.injEq, ByteStream.mk.injEq,
    List.drop_drop, true_and, and_true]

theorem read_string_err_insufficient (ctx : String) (s : ByteStream)
    (e : PErr) (h : read_string ctx s = .error e) :
    s.data.length < 4 + leU32 (s.data.take 4) := by
  by_contra hge
  push_neg at hge
  have h4 : 4 ≤ s.data.length := by omega
  obtain ⟨v, hv⟩ := read_string_any ctx s h4 hge
  rw [hv] at h
  exact Except.noConfusion h

theorem demoSong6_valid : songValid demoSong6 = true := by decide

theorem demoSong5_valid : songValid demoSong5 = true := by decide

/-- C1: for every valid song record, encoding at its declared version
(5 or 6) and decoding with read_uge returns the same record
field-for-field. -/
theorem C1_encode_decode_roundtrip (s : UgeSong) (h : songValid s = true) :
    read_uge (encodeSong s) = .ok s := by
  have k := parse_uge_enc s [] h
  rw [List.append_nil] at k
  rw [read_uge, k]
  rfl

theorem C1_encode_decode_roundtrip_witness :
    read_uge (encodeSong demoSong6) = .ok demoSong6 ∧
    read_uge (encodeSong demoSong5) = .ok demoSong5 :=
  ⟨C1_encode_decode_roundtrip demoSong6 demoSong6_valid,
   C1_encode_decode_roundtrip demoSong5 demoSong5_valid⟩

/-- C2: at version 6 the duty-instrument decoder reads a one-byte
subpattern flag and decodes the 64-row block only when it is nonzero
(consuming no extra bytes otherwise, with rows absent); at version 5 the
64-row block is decoded unconditionally at 17 bytes per row followed by 6
reserved bytes. -/
theorem C2_subpattern_version_gating :
    (∀ (idx p : Nat)
      (nB lB leB ivB vsdB vscB fstB seB fssB dcB uaB ubB rest : List Nat),
      nB.length = 256 → lB.length = 4 → leB.length = 1 → ivB.length = 1 →
      vsdB.length = 4 → vscB.length = 1 → fstB.length = 4 → seB.length = 4 →
      fssB.length = 4 → dcB.length = 1 → uaB.length = 4 → ubB.length = 4 →
      ∃ inst, parse_duty_instrument 6 idx
          ⟨write_u32 0 ++ (nB ++ (lB ++ (leB ++ (ivB ++ (vsdB ++ (vscB ++
            (fstB ++ (seB ++ (fssB ++ (dcB ++ (uaB ++ (ubB ++
            (0 :: rest))))))))))))), p⟩ =
        .ok ((inst, []), ⟨rest, p + 293⟩) ∧
      inst.subpattern_enabled = some false ∧ inst.rows = none) ∧
    (∀ (idx p b : Nat), b ≠ 0 →
      ∀ (nB lB leB ivB vsdB vscB fstB seB fssB dcB uaB ubB rest : List Nat),
      nB.length = 256 → lB.length = 4 → leB.length = 1 → ivB.length = 1 →
      vsdB.length = 4 → vscB.length = 1 → fstB.length = 4 → seB.length = 4 →
      fssB.length = 4 → dcB.length = 1 → uaB.length = 4 → ubB.length = 4 →
      1088 ≤ rest.length →
      ∃ inst rows, parse_duty_instrument 6 idx
          ⟨write_u32 0 ++ (nB ++ (lB ++ (leB ++ (ivB ++ (vsdB ++ (vscB ++
            (fstB ++ (seB ++ (fssB ++ (dcB ++ (uaB ++ (ubB ++
            (b :: rest))))))))))))), p⟩ =
        .ok ((inst, []), ⟨rest.drop 1088, p + 293 + 1088⟩) ∧
      inst.subpattern_enabled = some true ∧ inst.rows = some rows ∧
      rows.length = 64) ∧
    (∀ (ctx : String) (n : Nat) (s : ByteStream), 17 * n ≤ s.data.length →
      ∃ rows, parseRowsN ctx n s =
        .ok (rows, ⟨s.data.drop (17 * n), s.pos + 17 * n⟩) ∧
      rows.length = n) ∧
    (∀ (ctx : String) (s : ByteStream), 1088 ≤ s.data.length →
      ∃ rows, parse_instrument_rows 6 ctx s =
        .ok (rows, ⟨s.data.drop 1088, s.pos + 1088⟩) ∧ rows.length = 64) ∧
    (∀ (ctx : String) (s : ByteStream), 1094 ≤ s.data.length →
      ∃ rows, parse_instrument_rows 5 ctx s =
        .ok (rows, ⟨s.data.drop 1094, s.pos + 1094⟩) ∧ rows.length = 64) := by
  refine ⟨?_, ?_, ?_, ?_, ?_⟩
  · intro idx p nB lB leB ivB vsdB vscB fstB seB fssB dcB uaB ubB rest
      hn h1 h2 h3 h4 h5 h6 h7 h8 h9 h10 h11
    exact parse_duty6_flag_zero idx p nB lB leB ivB vsdB vscB fstB seB fssB
      dcB uaB ubB rest hn h1 h2 h3 h4 h5 h6 h7 h8 h9 h10 h11
  · intro idx p b hb nB lB leB ivB vsdB vscB fstB seB fssB dcB uaB ubB rest
      hn h1 h2 h3 h4 h5 h6 h7 h8 h9 h10 h11 hrest
    exact parse_duty6_flag_set idx p b hb nB lB leB ivB vsdB vscB fstB seB
      fssB dcB uaB ubB rest hn h1 h2 h3 h4 h5 h6 h7 h8 h9 h10 h11 hrest
  · intro ctx n s h
    exact parseRowsN_any ctx n s h
  · intro ctx s h
    exact parse_instrument_rows_any6 ctx s h
  · intro ctx s h
    exact parse_instrument_rows_any5 ctx s h

theorem C2_subpattern_version_gating_witness :
    ∃ inst, parse_duty_instrument 6 0
        ⟨write_u32 0 ++ (List.replicate 256 0 ++ (List.replicate 4 0 ++
          ([0] ++ ([15] ++ (List.replicate 4 0 ++ ([0] ++
          (List.replicate 4 0 ++ (List.replicate 4 0 ++ (List.replicate 4 0 ++
          ([2] ++ (List.replicate 4 0 ++ (List.replicate 4 0 ++
          (0 :: [7]))))))))))))), 0⟩ =
      .ok ((inst, []), ⟨[7], 293⟩) ∧
    inst.subpattern_enabled = some false ∧ inst.rows = none := by
  obtain ⟨inst, heq, hsub, hrows⟩ :=
    C2_subpattern_version_gating.1 0 0 (List.replicate 256 0)
      (List.replicate 4 0) [0] [15] (List.replicate 4 0) [0]
      (List.replicate 4 0) (List.replicate 4 0) (List.replicate 4 0) [2]
      (List.replicate 4 0) (List.replicate 4 0) [7]
      (List.length_replicate 256 0) (List.length_replicate 4 0) rfl rfl
      (List.length_replicate 4 0) rfl (List.length_replicate 4 0)
      (List.length_replicate 4 0) (List.length_replicate 4 0) rfl
      (List.length_replicate 4 0) (List.length_replicate 4 0)
  rw [Nat.zero_add] at heq
  exact ⟨inst, heq, hsub, hrows⟩

/-- C3: a first 32-bit word outside {5, 6} makes the whole-file decoder
fail with the unsupported-version error whatever follows; version words
5 and 6 proceed past the version field (failing only later, here from
the truncated header). -/
theorem C3_unsupported_version_gate :
    (∀ (w rest : List Nat), w.length = 4 → leU32 w ≠ 5 → leU32 w ≠ 6 →
      read_uge (w ++ rest) = .error (.unsupportedVersion (leU32 w))) ∧
    read_uge (write_u32 5) =
      .error (.truncated 4 1 0 "header.song_name.length") ∧
    read_uge (write_u32 6) =
      .error (.truncated 4 1 0 "header.song_name.length") := by
  refine ⟨?_, by rfl, by rfl⟩
  intro w rest hw h5 h6
  rw [read_uge, parse_uge]
  rw [read_u32_append _ w rest 0 hw]
  rw [ebind_ok]
  simp only []
  rw [if_pos (show leU32 w < 5 ∨ 6 < leU32 w by omega)]
  rfl

theorem C3_unsupported_version_gate_witness :
    read_uge (write_u32 7 ++ [9, 9]) = .error (.unsupportedVersion 7) := by
  have k := C3_unsupported_version_gate.1 (write_u32 7) [9, 9] rfl
    (by decide) (by decide)
  simpa using k

/-- C4: a short read fails with the truncated-input error carrying the
read's start offset, the need, the bytes available and the field context;
a successful read returns exactly the requested bytes (no zero-filling);
and each sub-decoder propagates such an error, shown at a truncation
point in the header, an instrument, the wavetable, the patterns, the
orders and the routines. -/
theorem C4_truncation_errors :
    (∀ (n : Nat) (ctx : String) (s : ByteStream), s.data.length < n →
      read_exact n ctx s = .error (.truncated s.pos n s.data.length ctx)) ∧
    (∀ (n : Nat) (ctx : String) (s : ByteStream) (r : List Nat × ByteStream),
      read_exact n ctx s = .ok r → r.1.length = n ∧ n ≤ s.data.length) ∧
    (∀ bytes : List Nat, bytes.length < 4 →
      read_uge bytes = .error (.truncated 0 4 bytes.length "header.version")) ∧
    (∀ (v idx p : Nat), parse_duty_instrument v idx ⟨[], p⟩ =
      .error (.truncated p 8 0 ("duty[" ++ toString idx ++ "]" ++ ".peek"))) ∧
    (∀ (v p : Nat), parse_wavetables v ⟨[], p⟩ =
      .error (.truncated p 1 0 "wavetable.nibble")) ∧
    (∀ (v p : Nat), parse_patterns v ⟨[], p⟩ =
      .error (.truncated p 4 0 "song.initial_ticks_per_row")) ∧
    (∀ p : Nat, parse_orders ⟨[], p⟩ =
      .error (.truncated p 4 0 "orders[Duty1].length_plus_one")) ∧
    (∀ p : Nat, parse_routines ⟨[], p⟩ =
      .error (.truncated p 4 0 "routine.len")) := by
  refine ⟨?_, ?_, ?_, ?_, ?_, ?_, ?_, ?_⟩
  · intro n ctx s h
    rw [read_exact, if_neg (by omega)]
  · intro n ctx s r h
    rw [read_exact] at h
    by_cases hn : n ≤ s.data.length
    · rw [if_pos hn] at h
      cases h
      exact ⟨by simp [List.length_take]; omega, hn⟩
    · rw [if_neg hn] at h
      exact Except.noConfusion h
  · intro bytes h
    rw [read_uge, parse_uge, read_u32, read_exact,
      if_neg (show ¬ 4 ≤ (⟨bytes, 0⟩ : ByteStream).data.length by simp; omega)]
    rfl
  · intro v idx p
    rfl
  · intro v p
    rfl
  · intro v p
    rfl
  · intro p
    rfl
  · intro p
    rfl

theorem C4_truncation_errors_witness :
    read_uge [1, 2] = .error (.truncated 0 4 2 "header.version") :=
  C4_truncation_errors.2.2.1 [1, 2] (by decide)

/-- C5: an order channel reads one 32-bit length-plus-one word L and
then exactly max(0, L-1) pairs of 32-bit words, keeping each pair's
first word and discarding the filler; a stored 0 yields the empty order,
and the four channels are decoded in fixed sequence. -/
theorem C5_order_channel_decoding :
    (∀ (ctx : String) (L p : Nat) (pairs : List (Nat × Nat))
      (rest : List Nat), L < 4294967296 → pairs.length = L - 1 →
      (∀ q ∈ pairs, q.1 < 4294967296) →
      parseOrderChannel ctx
          ⟨write_u32 L ++ ((pairs.map (fun q => write_u32 q.1 ++
            write_u32 q.2)).flatten ++ rest), p⟩ =
        .ok (pairs.map Prod.fst, ⟨rest, p + 4 + 8 * (L - 1)⟩)) ∧
    (∀ (ctx : String) (rest : List Nat) (p : Nat),
      parseOrderChannel ctx ⟨write_u32 0 ++ rest, p⟩ =
        .ok ([], ⟨rest, p + 4⟩)) ∧
    (∀ (o : Orders) (rest : List Nat) (p : Nat),
      validChannel o.duty1 = true → validChannel o.duty2 = true →
      validChannel o.wave = true → validChannel o.noise = true →
      parse_orders ⟨encOrderChannel o.duty1 ++ (encOrderChannel o.duty2 ++
          (encOrderChannel o.wave ++ (encOrderChannel o.noise ++ rest))), p⟩ =
        .ok (o, ⟨rest, p + 16 + 8 * (o.duty1.length + o.duty2.length +
          o.wave.length + o.noise.length)⟩)) := by
  refine ⟨?_, ?_, ?_⟩
  · intro ctx L p pairs rest hL hlen hlt
    exact parseOrderChannel_word ctx L p hL pairs rest hlen hlt
  · intro ctx rest p
    rw [parseOrderChannel]
    rw [read_u32_write _ _ _ _ (by norm_num)]
    rw [ebind_ok]
    rfl
  · intro o rest p h1 h2 h3 h4
    exact parse_orders_enc o rest p h1 h2 h3 h4

theorem C5_order_channel_decoding_witness :
    parseOrderChannel "orders[Duty1]"
        ⟨write_u32 3 ++ (((([(1, 0), (2, 0)] : List (Nat × Nat)).map
          (fun q => write_u32 q.1 ++ write_u32 q.2)).flatten ++ [9])), 0⟩ =
      .ok ([1, 2], ⟨[9], 20⟩) ∧
    parseOrderChannel "orders[Wave]" ⟨write_u32 0 ++ [9], 5⟩ =
      .ok ([], ⟨[9], 5 + 4⟩) := by
  constructor
  · have k := C5_order_channel_decoding.1 "orders[Duty1]" 3 0
      [(1, 0), (2, 0)] [9] (by norm_num) (by decide) (by decide)
    simpa using k
  · exact C5_order_channel_decoding.2.1 "orders[Wave]" [9] 5

/-- C6: on a tag mismatch the instrument decoder scans byte shifts 1..4
for a 32-bit read equal to the expected tag, resumes there with a
non-fatal warning when found, and otherwise fails with the fatal
unexpected-tag error; a matching tag passes through with no warning, and
the duty and noise instrument decoders propagate this resolution. -/
theorem C6_resync_policy :
    (∀ (expected : Nat) (ctx : String) (s : ByteStream),
      8 ≤ s.data.length → leU32 (s.data.take 4) = expected →
      resolveInstType expected ctx s =
        .ok ((leU32 (s.data.take 4), []), ⟨s.data.drop 4, s.pos + 4⟩)) ∧
    (∀ (expected : Nat) (ctx : String) (s : ByteStream) (k : Nat),
      8 ≤ s.data.length → leU32 (s.data.take 4) ≠ expected →
      scanShift expected ctx (leU32 (s.data.take 4)) s [1, 2, 3, 4] = .ok k →
      resolveInstType expected ctx s =
        .ok ((expected, [ctx ++ ".resync"]), ByteStream.dropBytes s k) ∧
      k ∈ [1, 2, 3, 4] ∧ leU32 ((s.data.drop k).take 4) = expected) ∧
    (∀ (expected : Nat) (ctx : String) (s : ByteStream) (e : PErr),
      8 ≤ s.data.length → leU32 (s.data.take 4) ≠ expected →
      scanShift expected ctx (leU32 (s.data.take 4)) s [1, 2, 3, 4] =
        .error e →
      resolveInstType expected ctx s = .error e ∧
      e = .unexpectedTag s.pos (leU32 (s.data.take 4)) expected) ∧
    (∀ (v idx : Nat) (s : ByteStream) (e : PErr),
      resolveInstType 0 ("duty[" ++ toString idx ++ "]") s = .error e →
      parse_duty_instrument v idx s = .error e) ∧
    (∀ (v idx t : Nat) (w : List String) (s s1 : ByteStream),
      resolveInstType 0 ("duty[" ++ toString idx ++ "]") s = .ok ((t, w), s1) →
      parse_duty_instrument v idx s =
        parseDutyBody v ("duty[" ++ toString idx ++ "]") t w s1) ∧
    (∀ (v idx : Nat) (s : ByteStream) (e : PErr),
      resolveInstType 2 ("noise[" ++ toString idx ++ "]") s = .error e →
      parse_noise_instrument v idx s = .error e) ∧
    (∀ (v idx t : Nat) (w : List String) (s s1 : ByteStream),
      resolveInstType 2 ("noise[" ++ toString idx ++ "]") s = .ok ((t, w), s1) →
      parse_noise_instrument v idx s =
        parseNoiseBody v ("noise[" ++ toString idx ++ "]") t w s1) := by
  refine ⟨?_, ?_, ?_, ?_, ?_, ?_, ?_⟩
  · intro expected ctx s h8 heq
    exact resolveInstType_pass expected ctx s h8 heq
  · intro expected ctx s k h8 hne hk
    obtain ⟨hm, _, htag⟩ := scanShift_ok expected ctx _ s _ k hk
    exact ⟨resolveInstType_resync expected ctx s k h8 hne hk, hm, htag⟩
  · intro expected ctx s e h8 hne hk
    exact ⟨resolveInstType_fail expected ctx s e h8 hne hk,
      scanShift_err expected ctx _ s _ e hk⟩
  · intro v idx s e h
    exact parse_duty_res_err v idx s e h
  · intro v idx t w s s1 h
    exact parse_duty_res_ok v idx t w s s1 h
  · intro v idx s e h
    exact parse_noise_res_err v idx s e h
  · intro v idx t w s s1 h
    exact parse_noise_res_ok v idx t w s s1 h

theorem C6_resync_policy_witness :
    resolveInstType 0 "duty[0]" ⟨[9, 9, 0, 0, 0, 0, 7, 7, 7, 7], 0⟩ =
      .ok ((0, ["duty[0]" ++ ".resync"]), ⟨[0, 0, 0, 0, 7, 7, 7, 7], 2⟩) ∧
    resolveInstType 0 "duty[1]" ⟨[9, 9, 9, 9, 9, 9, 9, 9], 3⟩ =
      .error (.unexpectedTag 3 (9 + 256 * (9 + 256 * (9 + 256 * 9))) 0) := by
  constructor
  · have k := C6_resync_policy.2.1 0 "duty[0]"
      ⟨[9, 9, 0, 0, 0, 0, 7, 7, 7, 7], 0⟩ 2 (by decide) (by decide) (by decide)
    simpa using k.1
  · have k := C6_resync_policy.2.2.1 0 "duty[1]"
      ⟨[9, 9, 9, 9, 9, 9, 9, 9], 3⟩
      (.unexpectedTag 3 (9 + 256 * (9 + 256 * (9 + 256 * 9))) 0)
      (by decide) (by decide) (by decide)
    exact k.1

/-- C7 (amended): a successful whole-file decode consumes exactly the
encoded byte length, leaving any trailing bytes unread in the stream
remainder; read_uge nevertheless accepts a stream with trailing bytes
(the Python code performs no end-of-file check). -/
theorem C7_trailing_bytes (s : UgeSong) (extra : List Nat)
    (h : songValid s = true) :
    parse_uge ⟨encodeSong s ++ extra, 0⟩ =
      .ok (s, ⟨extra, (encodeSong s).length⟩) ∧
    read_uge (encodeSong s ++ extra) = .ok s := by
  have k := parse_uge_enc s extra h
  exact ⟨k, by rw [read_uge, k]; rfl⟩

theorem C7_trailing_bytes_witness :
    parse_uge ⟨encodeSong demoSong5 ++ [1, 2], 0⟩ =
      .ok (demoSong5, ⟨[1, 2], (encodeSong demoSong5).length⟩) ∧
    read_uge (encodeSong demoSong5 ++ [1, 2]) = .ok demoSong5 :=
  C7_trailing_bytes demoSong5 [1, 2] demoSong5_valid

theorem C7_trailing_bytes_accepted :
    read_uge (encodeSong demoSong6 ++ [7]) = .ok demoSong6 := by
  rw [read_uge, parse_uge_enc demoSong6 [7] demoSong6_valid]
  rfl

/-- C9 (amended): for both supported versions the wavetable decoder
consumes exactly 16 x 32 = 512 bytes with no length prefix; the one-byte
filler read exists only for versions below 3, so no supported version
(including the lowest, 5) consumes it. -/
theorem C9_wavetable_consumption :
    (∀ (v : Nat), v = 5 ∨ v = 6 →
      ∀ (waves : List (List Nat)) (rest : List Nat) (p : Nat),
      waves.length = 16 → waves.all (fun w => w.length = 32) = true →
      parse_wavetables v ⟨waves.flatten ++ rest, p⟩ =
        .ok (waves, ⟨rest, p + 512⟩)) ∧
    (∀ (v : Nat), 3 ≤ v → ∀ s : ByteStream,
      parse_wavetables v s = parseWavesN 16 s) := by
  refine ⟨?_, ?_⟩
  · intro v hv waves rest p hn h
    exact parse_wavetables_enc v hv waves rest p hn h
  · intro v hv s
    cases hres : parseWavesN 16 s with
    | error e => rw [parse_wavetables, hres]; rfl
    | ok r =>
      rw [parse_wavetables, hres, ebind_ok]
      simp only []
      rw [if_neg (by omega)]
      rfl

theorem C9_wavetable_consumption_witness :
    parse_wavetables 5
        ⟨(List.replicate 16 (List.replicate 32 0)).flatten ++ [0], 0⟩ =
      .ok (List.replicate 16 (List.replicate 32 0), ⟨[0], 512⟩) := by
  have k := C9_wavetable_consumption.1 5 (Or.inl rfl)
    (List.replicate 16 (List.replicate 32 0)) [0] 0
    (List.length_replicate 16 (List.replicate 32 0)) (by decide)
  rw [Nat.zero_add] at k
  exact k

set_option maxRecDepth 8000 in
theorem C9_no_filler_counterexample :
    parse_wavetables 5 ⟨List.replicate 513 0, 0⟩ =
      .ok (List.replicate 16 (List.replicate 32 0), ⟨[0], 512⟩) := by
  decide

/-- C10: string reads never fail on content: any 256-byte shortstring
cell and any fully present length-prefixed payload decode successfully
(invalid utf-8 is replaced, not raised), and a failed string read always
means the stream had fewer bytes than the read required. -/
theorem C10_string_totality :
    (∀ (ctx : String) (bs rest : List Nat) (p : Nat), bs.length = 256 →
      ∃ v, read_shortstring ctx ⟨bs ++ rest, p⟩ =
        .ok (v, ⟨rest, p + 256⟩)) ∧
    (∀ (ctx : String) (n : Nat) (payload rest : List Nat) (p : Nat),
      n < 4294967296 → payload.length = n →
      ∃ v, read_string ctx ⟨write_u32 n ++ (payload ++ rest), p⟩ =
        .ok (v, ⟨rest, p + 4 + n⟩)) ∧
    (∀ (ctx : String) (s : ByteStream) (e : PErr),
      read_shortstring ctx s = .error e → s.data.length < 256) ∧
    (∀ (ctx : String) (s : ByteStream) (e : PErr),
      read_string ctx s = .error e →
      s.data.length < 4 + leU32 (s.data.take 4)) := by
  refine ⟨?_, ?_, ?_, ?_⟩
  · intro ctx bs rest p h
    exact read_shortstring_append ctx bs rest p h
  · intro ctx n payload rest p hn hp
    exact read_string_append_ok ctx n payload rest p hn hp
  · intro ctx s e h
    exact read_shortstring_err_insufficient ctx s e h
  · intro ctx s e h
    exact read_string_err_insufficient ctx s e h

theorem C10_string_totality_witness :
    (∃ v, read_shortstring "hdr"
        ⟨(3 :: 255 :: 254 :: 253 :: List.replicate 252 0) ++ [9], 0⟩ =
      .ok (v, ⟨[9], 256⟩)) ∧
    (∃ v, read_string "routine"
        ⟨write_u32 2 ++ ([255, 128] ++ [9]), 0⟩ =
      .ok (v, ⟨[9], 6⟩)) := by
  constructor
  · obtain ⟨v, hv⟩ := C10_string_totality.1 "hdr"
      (3 :: 255 :: 254 :: 253 :: List.replicate 252 0) [9] 0
      (by simp only [List.length_cons, List.length_replicate])
    rw [Nat.zero_add] at hv
    exact ⟨v, hv⟩
  · obtain ⟨v, hv⟩ := C10_string_totality.2.1 "routine" 2 [255, 128] [9] 0
      (by norm_num) rfl
    exact ⟨v, hv⟩

set_option maxRecDepth 20000 in
/-- C8: the minimal-fixture generator's output does not decode: each
write_minimal_duty_instrument emits 1385 bytes (an extra counter-step
u32 plus an unconditional 64-row subpattern block) while the version-6
decoder consumes only 293 of them when the subpattern flag byte is zero,
so the decoders drift and the whole file is rejected.  This theorem
records the per-instrument divergence on the generator's own bytes. -/
theorem C8_generator_parser_divergence :
    (write_minimal_duty_instrument 0).length = 1385 ∧
    parse_duty_instrument 6 0 ⟨write_minimal_duty_instrument 0, 0⟩ =
      .ok ((⟨0, [100, 117, 116, 121, 48], 0, false, some 15, some 0, some 0,
        some 0, some 0, some 0, some 2, none, none, none, some false,
        none⟩, []),
        ⟨(write_minimal_duty_instrument 0).drop 293, 293⟩) := by
  constructor
  · decide
  · decide
